import Mathlib

set_option maxHeartbeats 1000000

/-!
Shallow embedding of the stock-reconciliation logic of
`src/src/app/actions.ts` (repository `conciliacion_stock`).

Spreadsheet rows (as produced by `XLSX.utils.sheet_to_json` with
`raw: false`) are modelled as association lists from header name to the
cell's string value; a missing key models a cell that the JS row object
does not carry.  Numeric cell values are modelled as rationals: the
repository manipulates them only by `parseFloat`, addition, subtraction
and comparison with zero, so `ℚ` captures the algebra exactly (finite
decimal literals; JavaScript `Infinity` parsing is not modelled).
Thrown errors are modelled with `Except String`; the bare `return;`
statements inside `generateAnalysisFile` (which make the promise resolve
to `undefined`) are modelled as `Except.ok none`.
-/

namespace StockRecon

/-! ### JavaScript string primitives -/

/-- JS `String.prototype.toLowerCase` (ASCII range, which covers the
synonym tables up to the accented letters that are already lowercase). -/
def jsLower (s : String) : String := ⟨s.data.map Char.toLower⟩

/-- JS `String.prototype.toUpperCase` (ASCII range). -/
def jsUpper (s : String) : String := ⟨s.data.map Char.toUpper⟩

/-- JS `String.prototype.trim`: drop leading and trailing whitespace. -/
def jsTrim (s : String) : String :=
  ⟨((s.data.dropWhile Char.isWhitespace).reverse.dropWhile Char.isWhitespace).reverse⟩

/-- Helper for `replace(/\s+/g, ' ')`: collapse every maximal run of
whitespace to a single space.  The flag records whether the previous
character was whitespace. -/
def collapseWsGo : List Char → Bool → List Char
  | [], _ => []
  | c :: cs, prevWs =>
    if c.isWhitespace then
      if prevWs then collapseWsGo cs true else ' ' :: collapseWsGo cs true
    else c :: collapseWsGo cs false

/-- `k.toLowerCase().trim().replace(/\s+/g, ' ')` from `findHeader`. -/
def normalizeHeader (s : String) : String :=
  ⟨collapseWsGo (jsTrim (jsLower s)).data false⟩

/-- JS `.replace(/,/g, '')`. -/
def removeCommas (s : String) : String :=
  ⟨s.data.filter (fun c => c != ',')⟩

/-- Is `pat` a contiguous segment of `l`?  (JS `String.prototype.includes`.) -/
def segIn (pat : List Char) : List Char → Bool
  | [] => pat.isPrefixOf []
  | c :: cs => pat.isPrefixOf (c :: cs) || segIn pat cs

/-- JS `hay.includes(pat)`. -/
def strIncludes (hay pat : String) : Bool := segIn pat.data hay.data

/-- JS `s.startsWith(p)`. -/
def jsStartsWith (s p : String) : Bool := p.data.isPrefixOf s.data

/-! ### JS `parseFloat` (finite decimal literals) -/

/-- Value of a digit string, most significant first. -/
def digitsToNat (ds : List Char) : Nat :=
  ds.foldl (fun n c => 10 * n + (c.toNat - 48)) 0

/-- Exponent suffix of a decimal literal: `e`/`E`, optional sign, digits.
An incomplete exponent part is ignored, as `parseFloat` ignores trailing
garbage. -/
def expPart (m : ℚ) (rest : List Char) : ℚ :=
  let sgnRest : ℤ × List Char :=
    match rest with
    | '+' :: t => (1, t)
    | '-' :: t => (-1, t)
    | t => (1, t)
  let ed := sgnRest.2.takeWhile Char.isDigit
  if ed.isEmpty then m else m * (10 : ℚ) ^ (sgnRest.1 * (digitsToNat ed : ℤ))

/-- Apply an optional exponent suffix. -/
def applyExp (m : ℚ) (r : List Char) : ℚ :=
  match r with
  | 'e' :: rest => expPart m rest
  | 'E' :: rest => expPart m rest
  | _ => m

/-- Unsigned decimal literal prefix: `Digits [. Digits]` or `. Digits`,
with optional exponent.  `none` models `NaN`. -/
def parseDecimal (cs : List Char) : Option ℚ :=
  let ip := cs.takeWhile Char.isDigit
  let r1 := cs.dropWhile Char.isDigit
  let fp :=
    match r1 with
    | '.' :: rest => rest.takeWhile Char.isDigit
    | _ => []
  let r2 :=
    match r1 with
    | '.' :: rest => rest.dropWhile Char.isDigit
    | _ => r1
  if ip.isEmpty && fp.isEmpty then none
  else
    some (applyExp ((digitsToNat (ip ++ fp) : ℚ) / (10 : ℚ) ^ fp.length) r2)

/-- JS `parseFloat`, restricted to finite decimal literals:
leading whitespace, optional sign, decimal literal prefix; everything
after the longest valid prefix is ignored; `none` models `NaN`. -/
def parseFloat (s : String) : Option ℚ :=
  let cs := s.data.dropWhile Char.isWhitespace
  match cs with
  | '-' :: rest => (parseDecimal rest).map (fun q => -q)
  | '+' :: rest => parseDecimal rest
  | _ => parseDecimal cs

/-! ### Rows and cells -/

/-- A spreadsheet row: header name to formatted cell string, in the key
order of the JS row object. -/
abbrev Row := List (String × String)

/-- `String(row[h] || d)`: a missing key (JS `undefined`) and the empty
string are both falsy, so they fall back to the default. -/
def cellOr (r : Row) (h d : String) : String :=
  match r.lookup h with
  | some v => if v = "" then d else v
  | none => d

/-- `parseFloat(String(row[h] || '0').replace(/,/g, ''))` applied to a
cell value. -/
def parseQty (v : String) : Option ℚ := parseFloat (removeCommas v)

/-! ### Column synonyms (from `actions.ts`) -/

def SKU_SYNONYMS : List String :=
  ["sku", "material", "código", "codigo", "cód", "cod", "item", "producto",
   "product id", "artículo", "articulo", "referencia", "ref",
   "número de artículo", "numero de articulo"]

def QTY_SYNONYMS : List String :=
  ["unrestrictedstock", "libre utilización", "ctd.en um entrada", "quantity",
   "unrestricted", "cantidad", "cant", "stock", "existencia", "existencias",
   "qty", "on hand", "disponible", "stock sap", "stock wms", "ajuste", "ajustes"]

def AREA_SYNONYMS : List String := ["area", "área"]

def WMS_AREA_SAP_SYNONYMS : List String :=
  ["area sap", "almacén", "almacen", "storage location"]

def UBICACION_SYNONYMS : List String :=
  ["ubicación", "ubicacion", "bin", "location"]

def CENTRO_SYNONYMS : List String := ["centro", "center", "plant"]

def NOMBRE_PROD_SYNONYMS : List String :=
  ["nombre prod", "nombre producto", "product name", "descripción",
   "descripcion", "description", "texto breve de material"]

def CLASE_MOV_SYNONYMS : List String :=
  ["clase de movimiento", "clase mov", "cl. mov."]

/-- `findHeader` from `actions.ts`: first pass looks for a key whose
standardized form equals a (standardized) synonym, trying synonyms in
list order and keys in object order; second pass accepts a key that
contains a synonym as a substring; otherwise `undefined`. -/
def findHeader (row : Row) (synonyms : List String) : Option String :=
  let keys := row.map Prod.fst
  let cleaned := synonyms.map normalizeHeader
  match cleaned.findSome? (fun syn => keys.find? (fun k => normalizeHeader k == syn)) with
  | some k => some k
  | none =>
    cleaned.findSome? (fun syn => keys.find? (fun k => strIncludes (normalizeHeader k) syn))

/-! ### Accumulator state -/

/-- One `dataMap` entry. -/
structure Entry where
  sku : String
  sapQty : ℚ
  wmsQty : ℚ
  adjustment : ℚ
  stockParaTraslado : ℚ
  centro : String
  nombreProd : String
  descAlmacen : String
deriving Repr, DecidableEq

/-- The fresh entry inserted by `ensureSku`. -/
def newEntry (s : String) : Entry :=
  { sku := s, sapQty := 0, wmsQty := 0, adjustment := 0,
    stockParaTraslado := 0, centro := "", nombreProd := "",
    descAlmacen := "PT01" }

/-- `dataMap`, a JS `Map` keyed by SKU: a list of entries in insertion
order, with distinct `sku` fields. -/
abbrev DataMap := List Entry

/-- `ensureSku`: insert a fresh entry at the end when the key is absent. -/
def ensureSku (m : DataMap) (s : String) : DataMap :=
  if m.any (fun e => e.sku == s) then m else m ++ [newEntry s]

/-- In-place mutation of the entry stored under key `s`. -/
def updateEntry (m : DataMap) (s : String) (f : Entry → Entry) : DataMap :=
  m.map (fun e => if e.sku = s then f e else e)

/-- `dataMap.get(s)`. -/
def entryOf (m : DataMap) (s : String) : Option Entry :=
  m.find? (fun e => e.sku = s)

/-- A JS `Map<string, number>` in insertion order;
`m.set(k, (m.get(k) || 0) + q)`. -/
def addToCentro (m : List (String × ℚ)) (c : String) (q : ℚ) : List (String × ℚ) :=
  if m.any (fun p => p.1 == c) then
    m.map (fun p => if p.1 = c then (p.1, p.2 + q) else p)
  else m ++ [(c, q)]

/-- `skuToCentroMap.set(sku, centro)` guarded by `!map.has(sku)`. -/
def setIfAbsent (m : List (String × String)) (k v : String) : List (String × String) :=
  if m.any (fun p => p.1 == k) then m else m ++ [(k, v)]

/-- The four accumulators of `generateAnalysisFile`. -/
structure St where
  dataMap : DataMap
  skuToCentro : List (String × String)
  merma : List (String × ℚ)
  venc : List (String × ℚ)
deriving Repr, DecidableEq

def emptySt : St := { dataMap := [], skuToCentro := [], merma := [], venc := [] }

/-! ### SAP pass -/

structure SapHeaders where
  skuHeader : String
  qtyHeader : String
  centroHeader : String
  areaSapHeader : String
  descHeader : Option String
deriving Repr, DecidableEq

def sapArea (hs : SapHeaders) (r : Row) : String :=
  jsUpper (jsTrim (cellOr r hs.areaSapHeader ""))

def sapSku (hs : SapHeaders) (r : Row) : String :=
  jsTrim (cellOr r hs.skuHeader "")

def sapQtyVal (hs : SapHeaders) (r : Row) : Option ℚ :=
  parseQty (cellOr r hs.qtyHeader "0")

def sapCentro (hs : SapHeaders) (r : Row) : String :=
  jsTrim (cellOr r hs.centroHeader "")

def sapDesc (hs : SapHeaders) (r : Row) : String :=
  match hs.descHeader with
  | some dh => (r.lookup dh).getD ""
  | none => ""

/-- Mutations applied to the entry of a contributing SAP row:
`entry.sapQty += qty`, then the first-nonempty-wins writes of `centro`
and `nombreProd`. -/
def sapRowUpd (hs : SapHeaders) (r : Row) (qty : ℚ) (e : Entry) : Entry :=
  let e1 := { e with sapQty := e.sapQty + qty }
  let e2 := if e1.centro = "" then { e1 with centro := sapCentro hs r } else e1
  if e2.nombreProd = "" ∧ hs.descHeader.isSome then
    { e2 with nombreProd := sapDesc hs r }
  else e2

/-- One iteration of the SAP `forEach`. -/
def processSapRow (hs : SapHeaders) (st : St) (r : Row) : St :=
  if sapArea hs r = "PT01" then
    match sapQtyVal hs r with
    | none => st
    | some qty =>
      if sapSku hs r = "" then st
      else
        { st with
          dataMap := updateEntry (ensureSku st.dataMap (sapSku hs r)) (sapSku hs r)
            (sapRowUpd hs r qty),
          skuToCentro := if sapCentro hs r ≠ "" then
              setIfAbsent st.skuToCentro (sapSku hs r) (sapCentro hs r)
            else st.skuToCentro }
  else st

def processSap (hs : SapHeaders) (rows : List Row) (st : St) : St :=
  rows.foldl (processSapRow hs) st

/-! ### WMS pass -/

structure WmsHeaders where
  skuHeader : String
  qtyHeader : String
  areaHeader : String
  areaSapHeader : String
  ubicacionHeader : String
deriving Repr, DecidableEq

def wmsSku (hs : WmsHeaders) (r : Row) : String :=
  jsTrim (cellOr r hs.skuHeader "")

def wmsQtyVal (hs : WmsHeaders) (r : Row) : Option ℚ :=
  parseQty (cellOr r hs.qtyHeader "0")

def wmsAreaSap (hs : WmsHeaders) (r : Row) : String :=
  jsUpper (jsTrim (cellOr r hs.areaSapHeader ""))

def wmsArea (hs : WmsHeaders) (r : Row) : String :=
  jsUpper (jsTrim (cellOr r hs.areaHeader ""))

def wmsUbicacion (hs : WmsHeaders) (r : Row) : String :=
  jsTrim (cellOr r hs.ubicacionHeader "")

/-- Mutations applied to the entry of a valid WMS row: `wmsQty += qty`
when the row's area-SAP is `PT01`, `stockParaTraslado += qty` when the
row is in an `AREA STAGE` area with a `7…` bin.  (The source performs
the two conditional `Map` updates one after the other on the same
entry; the composition is a single update.) -/
def wmsRowUpd (hs : WmsHeaders) (r : Row) (qty : ℚ) (e : Entry) : Entry :=
  let e1 := if wmsAreaSap hs r = "PT01" then { e with wmsQty := e.wmsQty + qty } else e
  if jsStartsWith (wmsArea hs r) "AREA STAGE" ∧ jsStartsWith (wmsUbicacion hs r) "7" then
    { e1 with stockParaTraslado := e1.stockParaTraslado + qty }
  else e1

/-- One iteration of the WMS `forEach`. -/
def processWmsRow (hs : WmsHeaders) (st : St) (r : Row) : St :=
  match wmsQtyVal hs r with
  | none => st
  | some qty =>
    if wmsSku hs r = "" then st
    else
      { st with
        dataMap := updateEntry (ensureSku st.dataMap (wmsSku hs r)) (wmsSku hs r)
          (wmsRowUpd hs r qty) }

def processWms (hs : WmsHeaders) (rows : List Row) (st : St) : St :=
  rows.foldl (processWmsRow hs) st

/-! ### Adjustments pass -/

structure AdjHeaders where
  skuHeader : String
  qtyHeader : String
  claseMovHeader : String
deriving Repr, DecidableEq

def difInvMovs : List String := ["Z59", "Z60", "Z65", "Z66"]

def adjSku (hs : AdjHeaders) (r : Row) : String :=
  jsTrim (cellOr r hs.skuHeader "")

def adjQtyVal (hs : AdjHeaders) (r : Row) : Option ℚ :=
  parseQty (cellOr r hs.qtyHeader "0")

def adjClaseMov (hs : AdjHeaders) (r : Row) : String :=
  jsUpper (jsTrim (cellOr r hs.claseMovHeader ""))

/-- `dataMap.get(sku)!.adjustment += qty`. -/
def adjRowUpd (qty : ℚ) (e : Entry) : Entry :=
  { e with adjustment := e.adjustment + qty }

/-- One iteration of the adjustments `forEach`.  `skuToCentroMap` is only
read during this pass, so it is passed as the separate argument `stc`
(always `st.skuToCentro` at call sites). -/
def processAdjRow (hs : AdjHeaders) (stc : List (String × String)) (st : St) (r : Row) : St :=
  match adjQtyVal hs r with
  | none => st
  | some qty =>
    if adjSku hs r = "" ∨ adjClaseMov hs r = "" then st
    else
      let sku := adjSku hs r
      let claseMov := adjClaseMov hs r
      let centro := (stc.lookup sku).getD "INDEFINIDO"
      if claseMov ∈ difInvMovs then
        { st with dataMap := (updateEntry (ensureSku st.dataMap sku) sku
            (adjRowUpd qty)) }
      else if claseMov = "Z42" then
        { st with merma := addToCentro st.merma centro qty }
      else if claseMov = "Z44" then
        { st with venc := addToCentro st.venc centro qty }
      else st

def processAdj (hs : AdjHeaders) (stc : List (String × String)) (rows : List Row) (st : St) : St :=
  rows.foldl (processAdjRow hs stc) st

/-! ### Header resolution and validation steps -/

/-- Missing-column labels for the SAP file, in the order of the source's
`missing` array. -/
def sapMissing (first : Row) : List String :=
  (if (findHeader first SKU_SYNONYMS).isNone then ["SKU/Material"] else []) ++
  (if (findHeader first QTY_SYNONYMS).isNone then ["Cantidad/Stock"] else []) ++
  (if (findHeader first WMS_AREA_SAP_SYNONYMS).isNone then ["Almacén/AREA SAP"] else []) ++
  (if (findHeader first CENTRO_SYNONYMS).isNone then ["Centro"] else [])

/-- Missing-column labels for the WMS file. -/
def wmsMissing (first : Row) : List String :=
  (if (findHeader first SKU_SYNONYMS).isNone then ["SKU/Material"] else []) ++
  (if (findHeader first QTY_SYNONYMS).isNone then ["Cantidad"] else []) ++
  (if (findHeader first AREA_SYNONYMS).isNone then ["Área"] else []) ++
  (if (findHeader first UBICACION_SYNONYMS).isNone then ["Ubicación"] else []) ++
  (if (findHeader first WMS_AREA_SAP_SYNONYMS).isNone then ["AREA SAP/Almacén"] else [])

/-- Missing-column labels for the adjustments file. -/
def adjMissing (first : Row) : List String :=
  (if (findHeader first SKU_SYNONYMS).isNone then ["SKU/Material"] else []) ++
  (if (findHeader first QTY_SYNONYMS).isNone then ["Cantidad"] else []) ++
  (if (findHeader first CLASE_MOV_SYNONYMS).isNone then ["Clase de Movimiento"] else [])

/-- Resolved SAP headers (meaningful when `sapMissing first = []`). -/
def sapHeadersOf (first : Row) : SapHeaders :=
  { skuHeader := (findHeader first SKU_SYNONYMS).getD "",
    qtyHeader := (findHeader first QTY_SYNONYMS).getD "",
    centroHeader := (findHeader first CENTRO_SYNONYMS).getD "",
    areaSapHeader := (findHeader first WMS_AREA_SAP_SYNONYMS).getD "",
    descHeader := findHeader first NOMBRE_PROD_SYNONYMS }

/-- Resolved WMS headers (meaningful when `wmsMissing first = []`). -/
def wmsHeadersOf (first : Row) : WmsHeaders :=
  { skuHeader := (findHeader first SKU_SYNONYMS).getD "",
    qtyHeader := (findHeader first QTY_SYNONYMS).getD "",
    areaHeader := (findHeader first AREA_SYNONYMS).getD "",
    areaSapHeader := (findHeader first WMS_AREA_SAP_SYNONYMS).getD "",
    ubicacionHeader := (findHeader first UBICACION_SYNONYMS).getD "" }

/-- Resolved adjustments headers (meaningful when `adjMissing first = []`). -/
def adjHeadersOf (first : Row) : AdjHeaders :=
  { skuHeader := (findHeader first SKU_SYNONYMS).getD "",
    qtyHeader := (findHeader first QTY_SYNONYMS).getD "",
    claseMovHeader := (findHeader first CLASE_MOV_SYNONYMS).getD "" }

/-- `readFileFromBase64` after the workbook has been parsed into rows:
its own `throw` on zero data rows is caught by its own `catch` and
re-wrapped. -/
def readFile (rows : List Row) (fileName : String) : Except String (List Row) :=
  if rows.length = 0 then
    Except.error ("No se pudo leer el archivo " ++ fileName ++
      ". Asegúrate que es un formato .xlsx válido. Detalle: El archivo no contiene datos o está en un formato incorrecto.")
  else Except.ok rows

/-- Step 1 of `generateAnalysisFile` (the SAP `try` block), including the
`[Paso 1: SAP]` wrapping of any error. -/
def stepSap (sap : List Row) (st : St) : Except String St :=
  match readFile sap "SAP" with
  | Except.error m => Except.error ("[Paso 1: SAP] - " ++ m)
  | Except.ok rows =>
    match rows with
    | [] => Except.error "[Paso 1: SAP] - El archivo SAP está vacío o no tiene encabezados."
    | first :: _ =>
      if sapMissing first = [] then
        Except.ok (processSap (sapHeadersOf first) rows st)
      else
        Except.error ("[Paso 1: SAP] - Columnas requeridas no encontradas en archivo SAP: "
          ++ String.intercalate ", " (sapMissing first) ++ ".")

/-- Step 2 (the WMS `try` block). -/
def stepWms (wms : List Row) (st : St) : Except String St :=
  match readFile wms "WMS" with
  | Except.error m => Except.error ("[Paso 2: WMS] - " ++ m)
  | Except.ok rows =>
    match rows with
    | [] => Except.error "[Paso 2: WMS] - El archivo WMS está vacío o no tiene encabezados."
    | first :: _ =>
      if wmsMissing first = [] then
        Except.ok (processWms (wmsHeadersOf first) rows st)
      else
        Except.error ("[Paso 2: WMS] - Columnas requeridas no encontradas en archivo WMS: "
          ++ String.intercalate ", " (wmsMissing first) ++ ".")

/-- Step 3 (the adjustments `try` block).  `Except.ok none` models the
bare `return;` statements, which resolve the whole
`generateAnalysisFile` promise to `undefined`: one for an empty parsed
array, one for unresolvable columns (after a `console.warn`). -/
def stepAdj (adj : Option (List Row)) (st : St) : Except String (Option St) :=
  match adj with
  | none => Except.ok (some st)
  | some given =>
    match readFile given "Ajustes" with
    | Except.error m => Except.error ("[Paso 3: Ajustes] - " ++ m)
    | Except.ok rows =>
      match rows with
      | [] => Except.ok none
      | first :: _ =>
        if adjMissing first = [] then
          Except.ok (some (processAdj (adjHeadersOf first) st.skuToCentro rows st))
        else Except.ok none

/-- Steps 1-3: all accumulation. -/
def runPipeline (sap wms : List Row) (adj : Option (List Row)) :
    Except String (Option St) :=
  match stepSap sap emptySt with
  | Except.error m => Except.error m
  | Except.ok st1 =>
    match stepWms wms st1 with
    | Except.error m => Except.error m
    | Except.ok st2 => stepAdj adj st2

/-! ### Report generation -/

/-- One row of the `Análisis de Stock` sheet / `analysisReport` JSON. -/
structure ReportRow where
  centro : String
  descAlmacen : String
  sku : String
  nombreProd : String
  stockSAP : ℚ
  stockWMS : ℚ
  diferencia : ℚ
  ajuste : ℚ
  stockParaTraslado : ℚ
deriving Repr, DecidableEq

/-- The `map` body of the final report (including the in-place centro
fallback to `skuToCentroMap` / `INDEFINIDO`). -/
def mkReportRow (stc : List (String × String)) (e : Entry) : ReportRow :=
  let centro := if e.centro = "" then (stc.lookup e.sku).getD "INDEFINIDO" else e.centro
  { centro := centro, descAlmacen := e.descAlmacen, sku := e.sku,
    nombreProd := e.nombreProd, stockSAP := e.sapQty, stockWMS := e.wmsQty,
    diferencia := e.wmsQty - e.sapQty, ajuste := e.adjustment,
    stockParaTraslado := e.stockParaTraslado }

/-- Keep rows with a nonzero SAP stock, WMS stock or adjustment. -/
def keepRow (rr : ReportRow) : Bool :=
  decide (rr.stockSAP ≠ 0 ∨ rr.stockWMS ≠ 0 ∨ rr.ajuste ≠ 0)

/-- `finalReport`. -/
def buildReport (st : St) : List ReportRow :=
  (st.dataMap.map (mkReportRow st.skuToCentro)).filter keepRow

/-- `summaryByCentro`: adjustment totals of the final report, keyed by
centro (empty centro falls back to `INDEFINIDO`). -/
def summaryByCentro (fr : List ReportRow) : List (String × ℚ) :=
  fr.foldl
    (fun m rr =>
      addToCentro m (if rr.centro = "" then "INDEFINIDO" else rr.centro) rr.ajuste)
    []

def chartColors : List String :=
  ["var(--color-chart-1)", "var(--color-chart-2)", "var(--color-chart-3)",
   "var(--color-chart-4)", "var(--color-chart-5)"]

/-- `summaryChartData`: name, absolute value, fill color. -/
def mkChartData (summary : List (String × ℚ)) : List (String × ℚ × String) :=
  (summary.enum.map
    (fun p => (p.2.1, |p.2.2|, chartColors.getD (p.1 % chartColors.length) "")))
    |>.filter (fun t => decide (0 < t.2.1))

/-- `diferenciaReport`: per-centro adjustment totals, zero rows dropped. -/
def mkDiferenciaReport (summary : List (String × ℚ)) : List (String × ℚ) :=
  summary.filter (fun p => decide (p.2 ≠ 0))

/-- The returned value (step 4-6).  The generated Excel workbook is a
pure function of `analysisReport`, `mermaReport` and `vencimientoReport`;
its sheet list is modelled by the two option fields (a merma /
vencimiento sheet is appended only when its report is nonempty). -/
structure Output where
  analysisReport : List ReportRow
  mermaReport : List (String × ℚ)
  vencimientoReport : List (String × ℚ)
  workbookMermaSheet : Option (List (String × ℚ))
  workbookVencSheet : Option (List (String × ℚ))
  summaryChartData : List (String × ℚ × String)
  diferenciaReport : List (String × ℚ)
deriving Repr, DecidableEq

def mkOutput (st : St) : Output :=
  let fr := buildReport st
  let summary := summaryByCentro fr
  { analysisReport := fr,
    mermaReport := st.merma,
    vencimientoReport := st.venc,
    workbookMermaSheet := if st.merma.length > 0 then some st.merma else none,
    workbookVencSheet := if st.venc.length > 0 then some st.venc else none,
    summaryChartData := mkChartData summary,
    diferenciaReport := mkDiferenciaReport summary }

/-- `generateAnalysisFile`: the whole server action.  `Except.error`
models a thrown error, `Except.ok none` models the promise resolving to
`undefined` through one of the bare `return;` statements. -/
def generateAnalysisFile (sap wms : List Row) (adj : Option (List Row)) :
    Except String (Option Output) :=
  match runPipeline sap wms adj with
  | Except.error m => Except.error m
  | Except.ok none => Except.ok none
  | Except.ok (some st) => Except.ok (some (mkOutput st))

/-! ## Basic lemmas about the accumulators -/

/-- Field accessors for the per-SKU sums (`0` when the SKU is absent,
matching the freshly initialised entry). -/
def sapQtyOf (m : DataMap) (s : String) : ℚ := ((entryOf m s).map Entry.sapQty).getD 0

def wmsQtyOf (m : DataMap) (s : String) : ℚ := ((entryOf m s).map Entry.wmsQty).getD 0

def adjustmentOf (m : DataMap) (s : String) : ℚ :=
  ((entryOf m s).map Entry.adjustment).getD 0

def trasladoOf (m : DataMap) (s : String) : ℚ :=
  ((entryOf m s).map Entry.stockParaTraslado).getD 0

/-- Accumulated total of a per-centro map (`0` when absent). -/
def sumOf (m : List (String × ℚ)) (c : String) : ℚ := ((m.lookup c).getD 0)

/-- The SKU keys of a data map, in insertion order. -/
def keysOf (m : DataMap) : List String := m.map Entry.sku

theorem entryOf_ensureSku (m : DataMap) (t s : String) :
    entryOf (ensureSku m t) s =
      if s = t then some ((entryOf m t).getD (newEntry t)) else entryOf m s := by
  unfold ensureSku
  cases hany : m.any (fun e => e.sku == t) with
  | true =>
    rcases List.any_eq_true.mp hany with ⟨e, hmem, he⟩
    have he' : e.sku = t := by simpa using he
    have hsome : (entryOf m t).isSome := by
      unfold entryOf
      exact List.find?_isSome.mpr ⟨e, hmem, by simp [he']⟩
    rcases Option.isSome_iff_exists.mp hsome with ⟨e', he2⟩
    by_cases hst : s = t
    · subst hst; simp [he2]
    · simp [hst]
  | false =>
    have hnone : entryOf m t = none := by
      unfold entryOf
      refine List.find?_eq_none.mpr ?_
      intro e hmem hdec
      have h2 : e.sku = t := by simpa using hdec
      have h3 : m.any (fun e => e.sku == t) = true :=
        List.any_eq_true.mpr ⟨e, hmem, by simp [h2]⟩
      rw [hany] at h3
      exact Bool.false_ne_true h3
    rw [if_neg (by simp)]
    unfold entryOf
    rw [List.find?_append]
    by_cases hst : s = t
    · subst hst
      rw [show List.find? (fun e => decide (e.sku = s)) m = none from hnone]
      simp [hnone, newEntry]
    · have h1 : List.find? (fun e => decide (e.sku = s)) [newEntry t] = none := by
        simp [newEntry, Ne.symm hst]
      rw [h1, Option.or_none, if_neg hst]

theorem entryOf_updateEntry (m : DataMap) (t s : String) (f : Entry → Entry)
    (hf : ∀ e, (f e).sku = e.sku) :
    entryOf (updateEntry m t f) s =
      (entryOf m s).map (fun e => if e.sku = t then f e else e) := by
  unfold updateEntry entryOf
  induction m with
  | nil => rfl
  | cons e m ih =>
    have hsku : (if e.sku = t then f e else e).sku = e.sku := by
      by_cases het : e.sku = t <;> simp [het, hf]
    rw [List.map_cons]
    by_cases hes : e.sku = s
    · subst hes
      rw [List.find?_cons, List.find?_cons, hsku]
      simp
    · rw [List.find?_cons, List.find?_cons, hsku]
      have hd : decide (e.sku = s) = false := by simp [hes]
      rw [hd]
      exact ih

theorem keysOf_updateEntry (m : DataMap) (t : String) (f : Entry → Entry)
    (hf : ∀ e, (f e).sku = e.sku) :
    keysOf (updateEntry m t f) = keysOf m := by
  unfold keysOf updateEntry
  induction m with
  | nil => rfl
  | cons e m ih =>
    by_cases het : e.sku = t <;> simp only [List.map_cons, if_pos, if_neg, het, hf, ih]
    simp [hf]

theorem not_mem_keysOf_of_any_false (m : DataMap) (t : String)
    (hany : m.any (fun e => e.sku == t) = false) : t ∉ keysOf m := by
  intro hmem
  rcases List.mem_map.mp hmem with ⟨e, hm, he⟩
  have h3 : m.any (fun e => e.sku == t) = true :=
    List.any_eq_true.mpr ⟨e, hm, by simp [he]⟩
  rw [hany] at h3
  exact Bool.false_ne_true h3

theorem nodupKeys_ensureSku (m : DataMap) (t : String) (h : (keysOf m).Nodup) :
    (keysOf (ensureSku m t)).Nodup := by
  unfold ensureSku
  cases hany : m.any (fun e => e.sku == t) with
  | true => simpa using h
  | false =>
    rw [if_neg (by simp)]
    unfold keysOf
    rw [List.map_append]
    refine List.nodup_append.mpr ⟨h, List.nodup_singleton _, ?_⟩
    intro a ha hb
    have hat : a = t := by simpa [newEntry] using hb
    exact not_mem_keysOf_of_any_false m t hany (hat ▸ ha)

theorem nodupKeys_updateEntry (m : DataMap) (t : String) (f : Entry → Entry)
    (hf : ∀ e, (f e).sku = e.sku) (h : (keysOf m).Nodup) :
    (keysOf (updateEntry m t f)).Nodup := by
  rw [keysOf_updateEntry m t f hf]; exact h

theorem goodKeys_ensureSku (m : DataMap) (t : String)
    (h : ∀ e ∈ m, e.sku ≠ "") (ht : t ≠ "") :
    ∀ e ∈ ensureSku m t, e.sku ≠ "" := by
  unfold ensureSku
  cases m.any (fun e => e.sku == t) with
  | true => simpa using h
  | false =>
    rw [if_neg (by simp)]
    intro e he
    rcases List.mem_append.mp he with h1 | h1
    · exact h e h1
    · have : e = newEntry t := by simpa using h1
      subst this
      simpa [newEntry] using ht

theorem goodKeys_updateEntry (m : DataMap) (t : String) (f : Entry → Entry)
    (hf : ∀ e, (f e).sku = e.sku) (h : ∀ e ∈ m, e.sku ≠ "") :
    ∀ e ∈ updateEntry m t f, e.sku ≠ "" := by
  unfold updateEntry
  intro e he
  rcases List.mem_map.mp he with ⟨a, ha, rfl⟩
  by_cases hat : a.sku = t
  · rw [if_pos hat, hf]; exact h a ha
  · rw [if_neg hat]; exact h a ha

theorem entryOf_eq_some_of_mem {m : DataMap} (h : (keysOf m).Nodup)
    {e : Entry} (he : e ∈ m) : entryOf m e.sku = some e := by
  induction m with
  | nil => cases he
  | cons a m ih =>
    unfold entryOf
    rcases List.mem_cons.mp he with rfl | hm
    · rw [List.find?_cons_of_pos _ (by simp)]
    · have hna : a.sku ≠ e.sku := by
        intro hcontra
        unfold keysOf at h
        rw [List.map_cons] at h
        have : e.sku ∈ m.map Entry.sku := List.mem_map.mpr ⟨e, hm, rfl⟩
        rw [← hcontra] at this
        exact (List.nodup_cons.mp h).1 this
      rw [List.find?_cons_of_neg _ (by simpa using hna)]
      exact ih (by unfold keysOf at h ⊢; rw [List.map_cons] at h; exact (List.nodup_cons.mp h).2) hm

theorem mem_of_entryOf_eq_some {m : DataMap} {s : String} {e : Entry}
    (h : entryOf m s = some e) : e ∈ m ∧ e.sku = s := by
  refine ⟨List.mem_of_find?_eq_some h, ?_⟩
  have := List.find?_some h
  simpa using this

theorem perm_of_entryOf_eq (m₁ m₂ : DataMap)
    (h₁ : (keysOf m₁).Nodup) (h₂ : (keysOf m₂).Nodup)
    (h : ∀ s, entryOf m₁ s = entryOf m₂ s) : m₁.Perm m₂ := by
  refine (List.perm_ext_iff_of_nodup (List.Nodup.of_map _ h₁) (List.Nodup.of_map _ h₂)).mpr ?_
  intro e
  constructor
  · intro he
    have := entryOf_eq_some_of_mem h₁ he
    rw [h e.sku] at this
    exact (mem_of_entryOf_eq_some this).1
  · intro he
    have := entryOf_eq_some_of_mem h₂ he
    rw [← h e.sku] at this
    exact (mem_of_entryOf_eq_some this).1

/-! ### Generic fold lemmas -/

theorem foldl_add_of_step {σ β : Type} (g : σ → β → σ) (f : σ → ℚ) (c : β → ℚ)
    (h : ∀ st r, f (g st r) = f st + c r) :
    ∀ (rows : List β) (st : σ), f (rows.foldl g st) = f st + (rows.map c).sum := by
  intro rows
  induction rows with
  | nil => intro st; simp
  | cons r rows ih =>
    intro st
    rw [List.foldl_cons, ih, h, List.map_cons, List.sum_cons, add_assoc]

theorem foldl_pres {σ α β : Type} (g : σ → β → σ) (p : σ → α)
    (h : ∀ st r, p (g st r) = p st) :
    ∀ (rows : List β) (st : σ), p (rows.foldl g st) = p st := by
  intro rows
  induction rows with
  | nil => intro st; rfl
  | cons r rows ih => intro st; rw [List.foldl_cons, ih, h]

/-! ### Per-centro map lemmas -/

theorem lookup_map_addVal (m : List (String × ℚ)) (k : String) (q : ℚ) (c : String) :
    (m.map (fun p => if p.1 = k then (p.1, p.2 + q) else p)).lookup c
      = (m.lookup c).map (fun v => if c = k then v + q else v) := by
  induction m with
  | nil => rfl
  | cons p m ih =>
    have hfst : (if p.1 = k then (p.1, p.2 + q) else p).1 = p.1 := by
      by_cases hpk : p.1 = k <;> simp [hpk]
    by_cases hpc : c = p.1
    · subst hpc
      rw [List.map_cons, List.lookup_cons, List.lookup_cons]
      rw [hfst]
      simp only [beq_self_eq_true]
      by_cases hpk : p.1 = k <;> simp [hpk]
    · rw [List.map_cons, List.lookup_cons, List.lookup_cons, hfst]
      have hb : (c == p.1) = false := by simpa using hpc
      rw [hb]
      exact ih

theorem any_key_eq_lookup_isSome {β : Type} (m : List (String × β)) (k : String) :
    m.any (fun p => p.1 == k) = (m.lookup k).isSome := by
  induction m with
  | nil => rfl
  | cons p m ih =>
    rw [List.any_cons, List.lookup_cons]
    by_cases hpk : p.1 = k
    · simp [hpk]
    · have hb : (p.1 == k) = false := by simpa using hpk
      have hb2 : (k == p.1) = false := by
        simp only [beq_eq_false_iff_ne]
        exact fun hcontra => hpk hcontra.symm
      rw [hb, hb2]
      simpa using ih

theorem sumOf_addToCentro (m : List (String × ℚ)) (k : String) (q : ℚ) (c : String) :
    sumOf (addToCentro m k q) c = sumOf m c + (if c = k then q else 0) := by
  unfold addToCentro sumOf
  cases hany : m.any (fun p => p.1 == k) with
  | true =>
    rw [if_pos (by simp [hany]), lookup_map_addVal]
    cases hlk : m.lookup c with
    | some v => by_cases hck : c = k <;> simp [hck]
    | none =>
      by_cases hck : c = k
      · subst hck
        rw [any_key_eq_lookup_isSome] at hany
        rw [hlk] at hany
        cases hany
      · simp [hck]
  | false =>
    rw [if_neg (by simp [hany]), List.lookup_append]
    cases hlk : m.lookup c with
    | some v =>
      by_cases hck : c = k
      · subst hck
        rw [any_key_eq_lookup_isSome, hlk] at hany
        cases hany
      · simp [hck]
    | none =>
      by_cases hck : c = k
      · subst hck
        simp
      · have hsing : ([(k, q)] : List (String × ℚ)).lookup c = none := by
          rw [List.lookup_cons]
          have hb : (c == k) = false := by simpa using hck
          rw [hb]
          rfl
        simp [hsing, hck]

/-! ### Row contributions and specification sums -/

/-- A SAP row's contribution to the `Stock SAP` sum of SKU `s`. -/
def sapContrib (hs : SapHeaders) (s : String) (r : Row) : ℚ :=
  if sapArea hs r = "PT01" ∧ sapSku hs r = s then (sapQtyVal hs r).getD 0 else 0

/-- Sum of the parsed quantity values over the SAP rows with SKU `s`
whose area-SAP is `PT01` (rows whose quantity does not parse contribute
nothing). -/
def sapSum (hs : SapHeaders) (rows : List Row) (s : String) : ℚ :=
  (rows.filterMap (fun r =>
    if sapArea hs r = "PT01" ∧ sapSku hs r = s then sapQtyVal hs r else none)).sum

def wmsContrib (hs : WmsHeaders) (s : String) (r : Row) : ℚ :=
  if wmsAreaSap hs r = "PT01" ∧ wmsSku hs r = s then (wmsQtyVal hs r).getD 0 else 0

/-- Sum of the parsed quantity values over the WMS rows with SKU `s`
whose area-SAP is `PT01`. -/
def wmsSum (hs : WmsHeaders) (rows : List Row) (s : String) : ℚ :=
  (rows.filterMap (fun r =>
    if wmsAreaSap hs r = "PT01" ∧ wmsSku hs r = s then wmsQtyVal hs r else none)).sum

def trasContrib (hs : WmsHeaders) (s : String) (r : Row) : ℚ :=
  if jsStartsWith (wmsArea hs r) "AREA STAGE" ∧ jsStartsWith (wmsUbicacion hs r) "7"
     ∧ wmsSku hs r = s
  then (wmsQtyVal hs r).getD 0 else 0

def trasSum (hs : WmsHeaders) (rows : List Row) (s : String) : ℚ :=
  (rows.map (trasContrib hs s)).sum

def adjContrib (hs : AdjHeaders) (s : String) (r : Row) : ℚ :=
  if adjClaseMov hs r ∈ difInvMovs ∧ adjSku hs r = s then (adjQtyVal hs r).getD 0 else 0

def adjSum (hs : AdjHeaders) (rows : List Row) (s : String) : ℚ :=
  (rows.map (adjContrib hs s)).sum

def mermaContrib (hs : AdjHeaders) (stc : List (String × String)) (c : String) (r : Row) : ℚ :=
  if adjSku hs r ≠ "" ∧ adjClaseMov hs r = "Z42"
     ∧ ((stc.lookup (adjSku hs r)).getD "INDEFINIDO") = c
  then (adjQtyVal hs r).getD 0 else 0

def mermaSum (hs : AdjHeaders) (stc : List (String × String)) (rows : List Row) (c : String) : ℚ :=
  (rows.map (mermaContrib hs stc c)).sum

def vencContrib (hs : AdjHeaders) (stc : List (String × String)) (c : String) (r : Row) : ℚ :=
  if adjSku hs r ≠ "" ∧ adjClaseMov hs r = "Z44"
     ∧ ((stc.lookup (adjSku hs r)).getD "INDEFINIDO") = c
  then (adjQtyVal hs r).getD 0 else 0

def vencSum (hs : AdjHeaders) (stc : List (String × String)) (rows : List Row) (c : String) : ℚ :=
  (rows.map (vencContrib hs stc c)).sum

theorem sum_filterMap_if (p : Row → Prop) [DecidablePred p] (q : Row → Option ℚ) :
    ∀ rows : List Row,
      (rows.filterMap (fun r => if p r then q r else none)).sum
        = (rows.map (fun r => if p r then (q r).getD 0 else 0)).sum := by
  intro rows
  induction rows with
  | nil => rfl
  | cons r rows ih =>
    by_cases hp : p r
    · cases hq : q r with
      | none => simp [hp, hq, ih]
      | some v => simp [hp, hq, ih]
    · simp [hp, ih]

theorem sapSum_eq_map (hs : SapHeaders) (rows : List Row) (s : String) :
    sapSum hs rows s = (rows.map (sapContrib hs s)).sum := by
  unfold sapSum sapContrib
  exact sum_filterMap_if _ _ rows

theorem wmsSum_eq_map (hs : WmsHeaders) (rows : List Row) (s : String) :
    wmsSum hs rows s = (rows.map (wmsContrib hs s)).sum := by
  unfold wmsSum wmsContrib
  exact sum_filterMap_if _ _ rows

/-! ### Update-function field lemmas -/

theorem sapRowUpd_sku (hs : SapHeaders) (r : Row) (q : ℚ) (e : Entry) :
    (sapRowUpd hs r q e).sku = e.sku := by
  unfold sapRowUpd
  dsimp only
  split <;> split <;> rfl

theorem sapRowUpd_sapQty (hs : SapHeaders) (r : Row) (q : ℚ) (e : Entry) :
    (sapRowUpd hs r q e).sapQty = e.sapQty + q := by
  unfold sapRowUpd
  dsimp only
  split <;> split <;> rfl

theorem sapRowUpd_wmsQty (hs : SapHeaders) (r : Row) (q : ℚ) (e : Entry) :
    (sapRowUpd hs r q e).wmsQty = e.wmsQty := by
  unfold sapRowUpd
  dsimp only
  split <;> split <;> rfl

theorem sapRowUpd_adjustment (hs : SapHeaders) (r : Row) (q : ℚ) (e : Entry) :
    (sapRowUpd hs r q e).adjustment = e.adjustment := by
  unfold sapRowUpd
  dsimp only
  split <;> split <;> rfl

theorem sapRowUpd_traslado (hs : SapHeaders) (r : Row) (q : ℚ) (e : Entry) :
    (sapRowUpd hs r q e).stockParaTraslado = e.stockParaTraslado := by
  unfold sapRowUpd
  dsimp only
  split <;> split <;> rfl

theorem wmsRowUpd_sku (hs : WmsHeaders) (r : Row) (q : ℚ) (e : Entry) :
    (wmsRowUpd hs r q e).sku = e.sku := by
  unfold wmsRowUpd
  dsimp only
  split <;> split <;> rfl

theorem wmsRowUpd_wmsQty (hs : WmsHeaders) (r : Row) (q : ℚ) (e : Entry) :
    (wmsRowUpd hs r q e).wmsQty
      = e.wmsQty + (if wmsAreaSap hs r = "PT01" then q else 0) := by
  unfold wmsRowUpd
  dsimp only
  split <;> split <;> simp

theorem wmsRowUpd_traslado (hs : WmsHeaders) (r : Row) (q : ℚ) (e : Entry) :
    (wmsRowUpd hs r q e).stockParaTraslado
      = e.stockParaTraslado
        + (if jsStartsWith (wmsArea hs r) "AREA STAGE" ∧ jsStartsWith (wmsUbicacion hs r) "7"
           then q else 0) := by
  unfold wmsRowUpd
  dsimp only
  split <;> split <;> simp

theorem wmsRowUpd_sapQty (hs : WmsHeaders) (r : Row) (q : ℚ) (e : Entry) :
    (wmsRowUpd hs r q e).sapQty = e.sapQty := by
  unfold wmsRowUpd
  dsimp only
  split <;> split <;> rfl

theorem wmsRowUpd_adjustment (hs : WmsHeaders) (r : Row) (q : ℚ) (e : Entry) :
    (wmsRowUpd hs r q e).adjustment = e.adjustment := by
  unfold wmsRowUpd
  dsimp only
  split <;> split <;> rfl

theorem adjRowUpd_sku (q : ℚ) (e : Entry) : (adjRowUpd q e).sku = e.sku := rfl

theorem adjRowUpd_adjustment (q : ℚ) (e : Entry) :
    (adjRowUpd q e).adjustment = e.adjustment + q := rfl

/-! ### Entry lookup across a keyed update -/

theorem entryOf_update_ensure (m : DataMap) (t s : String) (f : Entry → Entry)
    (hf : ∀ e, (f e).sku = e.sku) :
    entryOf (updateEntry (ensureSku m t) t f) s =
      if s = t then some (f ((entryOf m t).getD (newEntry t))) else entryOf m s := by
  rw [entryOf_updateEntry _ _ _ _ hf, entryOf_ensureSku]
  by_cases hst : s = t
  · subst hst
    rw [if_pos rfl, if_pos rfl]
    have hsku : ((entryOf m s).getD (newEntry s)).sku = s := by
      cases h : entryOf m s with
      | none => simp [newEntry]
      | some e => simpa using (mem_of_entryOf_eq_some h).2
    show some (if ((entryOf m s).getD (newEntry s)).sku = s then _ else _) = _
    rw [if_pos hsku]
  · rw [if_neg hst, if_neg hst]
    cases h : entryOf m s with
    | none => rfl
    | some e =>
      have he : e.sku = s := (mem_of_entryOf_eq_some h).2
      have hne : (if e.sku = t then f e else e) = e := if_neg (by rw [he]; exact hst)
      simp [hne]

/-- Effect of `updateEntry (ensureSku m t) t f` on a `ℚ`-valued
accessor: `+ d` at key `t`, unchanged elsewhere. -/
theorem qtyAcc_update_ensure (m : DataMap) (t s : String) (f : Entry → Entry)
    (hf : ∀ e, (f e).sku = e.sku) (proj : Entry → ℚ) (d : ℚ)
    (hproj : ∀ e, proj (f e) = proj e + d) (hnew : proj (newEntry t) = 0) :
    ((entryOf (updateEntry (ensureSku m t) t f) s).map proj).getD 0
      = ((entryOf m s).map proj).getD 0 + (if s = t then d else 0) := by
  rw [entryOf_update_ensure _ _ _ _ hf]
  by_cases hst : s = t
  · subst hst
    rw [if_pos rfl, if_pos rfl]
    cases h : entryOf m s with
    | none => simp [hproj, hnew]
    | some e => simp [hproj]
  · simp [hst]

/-! ### SAP pass: step lemmas -/

theorem sapQtyOf_processSapRow (hs : SapHeaders) (st : St) (r : Row) (s : String)
    (hsne : s ≠ "") :
    sapQtyOf (processSapRow hs st r).dataMap s
      = sapQtyOf st.dataMap s + sapContrib hs s r := by
  unfold processSapRow sapContrib sapQtyOf
  by_cases harea : sapArea hs r = "PT01"
  · rw [if_pos harea]
    cases hq : sapQtyVal hs r with
    | none => simp [hq]
    | some qty =>
      dsimp only
      by_cases hsku0 : sapSku hs r = ""
      · rw [if_pos hsku0]
        have hz : ¬ (sapArea hs r = "PT01" ∧ sapSku hs r = s) := by
          rintro ⟨-, h2⟩
          exact hsne (h2 ▸ hsku0)
        simp [hz]
      · rw [if_neg hsku0]
        dsimp only
        rw [qtyAcc_update_ensure st.dataMap (sapSku hs r) s (sapRowUpd hs r qty)
            (sapRowUpd_sku hs r qty) Entry.sapQty qty (sapRowUpd_sapQty hs r qty)
            (by simp [newEntry])]
        by_cases hss : s = sapSku hs r
        · rw [if_pos hss, if_pos ⟨harea, hss.symm⟩]
          rfl
        · rw [if_neg hss, if_neg (fun h => hss (And.right h).symm)]
  · rw [if_neg harea, if_neg (fun h => harea (And.left h))]
    simp

theorem qtyAccPres_processSapRow (hs : SapHeaders) (st : St) (r : Row) (s : String)
    (proj : Entry → ℚ)
    (hproj : ∀ r' q e, proj (sapRowUpd hs r' q e) = proj e)
    (hnew : ∀ t, proj (newEntry t) = 0) :
    ((entryOf (processSapRow hs st r).dataMap s).map proj).getD 0
      = ((entryOf st.dataMap s).map proj).getD 0 := by
  unfold processSapRow
  by_cases harea : sapArea hs r = "PT01"
  · rw [if_pos harea]
    cases hq : sapQtyVal hs r with
    | none => rfl
    | some qty =>
      dsimp only
      by_cases hsku0 : sapSku hs r = ""
      · rw [if_pos hsku0]
      · rw [if_neg hsku0]
        dsimp only
        rw [qtyAcc_update_ensure st.dataMap (sapSku hs r) s (sapRowUpd hs r qty)
            (sapRowUpd_sku hs r qty) proj 0 (fun e => by rw [hproj, add_zero])
            (hnew _)]
        simp
  · rw [if_neg harea]

theorem merma_processSapRow (hs : SapHeaders) (st : St) (r : Row) :
    (processSapRow hs st r).merma = st.merma := by
  unfold processSapRow
  split
  · split
    · rfl
    · split <;> rfl
  · rfl

theorem venc_processSapRow (hs : SapHeaders) (st : St) (r : Row) :
    (processSapRow hs st r).venc = st.venc := by
  unfold processSapRow
  split
  · split
    · rfl
    · split <;> rfl
  · rfl

theorem nodupKeys_processSapRow (hs : SapHeaders) (st : St) (r : Row)
    (h : (keysOf st.dataMap).Nodup) :
    (keysOf (processSapRow hs st r).dataMap).Nodup := by
  unfold processSapRow
  split
  · split
    · exact h
    · split
      · exact h
      · dsimp only
        exact nodupKeys_updateEntry _ _ _ (sapRowUpd_sku hs r _)
          (nodupKeys_ensureSku _ _ h)
  · exact h

theorem goodKeys_processSapRow (hs : SapHeaders) (st : St) (r : Row)
    (h : ∀ e ∈ st.dataMap, e.sku ≠ "") :
    ∀ e ∈ (processSapRow hs st r).dataMap, e.sku ≠ "" := by
  unfold processSapRow
  split
  · split
    · exact h
    · split
      · exact h
      · dsimp only
        refine goodKeys_updateEntry _ _ _ (sapRowUpd_sku hs r _) ?_
        exact goodKeys_ensureSku _ _ h (by assumption)
  · exact h

/-! ### WMS pass: step lemmas -/

theorem wmsQtyOf_processWmsRow (hs : WmsHeaders) (st : St) (r : Row) (s : String)
    (hsne : s ≠ "") :
    wmsQtyOf (processWmsRow hs st r).dataMap s
      = wmsQtyOf st.dataMap s + wmsContrib hs s r := by
  unfold processWmsRow wmsContrib wmsQtyOf
  cases hq : wmsQtyVal hs r with
  | none => simp [hq]
  | some qty =>
    dsimp only
    by_cases hsku0 : wmsSku hs r = ""
    · rw [if_pos hsku0]
      have hz : ¬ (wmsAreaSap hs r = "PT01" ∧ wmsSku hs r = s) := by
        rintro ⟨-, h2⟩
        exact hsne (h2 ▸ hsku0)
      simp [hz]
    · rw [if_neg hsku0]
      dsimp only
      rw [qtyAcc_update_ensure st.dataMap (wmsSku hs r) s (wmsRowUpd hs r qty)
          (wmsRowUpd_sku hs r qty) Entry.wmsQty
          (if wmsAreaSap hs r = "PT01" then qty else 0)
          (wmsRowUpd_wmsQty hs r qty) (by simp [newEntry])]
      by_cases hss : s = wmsSku hs r
      · rw [if_pos hss]
        by_cases hpt : wmsAreaSap hs r = "PT01"
        · rw [if_pos hpt, if_pos ⟨hpt, hss.symm⟩]
          rfl
        · rw [if_neg hpt, if_neg (fun h => hpt (And.left h))]
      · rw [if_neg hss, if_neg (fun h => hss (And.right h).symm)]

theorem trasladoOf_processWmsRow (hs : WmsHeaders) (st : St) (r : Row) (s : String)
    (hsne : s ≠ "") :
    trasladoOf (processWmsRow hs st r).dataMap s
      = trasladoOf st.dataMap s + trasContrib hs s r := by
  unfold processWmsRow trasContrib trasladoOf
  cases hq : wmsQtyVal hs r with
  | none => simp [hq]
  | some qty =>
    dsimp only
    by_cases hsku0 : wmsSku hs r = ""
    · rw [if_pos hsku0]
      have hz : ¬ (jsStartsWith (wmsArea hs r) "AREA STAGE"
          ∧ jsStartsWith (wmsUbicacion hs r) "7" ∧ wmsSku hs r = s) := by
        rintro ⟨-, -, h2⟩
        exact hsne (h2 ▸ hsku0)
      simp [hz]
    · rw [if_neg hsku0]
      dsimp only
      rw [qtyAcc_update_ensure st.dataMap (wmsSku hs r) s (wmsRowUpd hs r qty)
          (wmsRowUpd_sku hs r qty) Entry.stockParaTraslado
          (if jsStartsWith (wmsArea hs r) "AREA STAGE"
              ∧ jsStartsWith (wmsUbicacion hs r) "7" then qty else 0)
          (wmsRowUpd_traslado hs r qty) (by simp [newEntry])]
      by_cases hss : s = wmsSku hs r
      · rw [if_pos hss]
        by_cases hst7 : jsStartsWith (wmsArea hs r) "AREA STAGE"
            ∧ jsStartsWith (wmsUbicacion hs r) "7"
        · rw [if_pos hst7, if_pos ⟨hst7.1, hst7.2, hss.symm⟩]
          rfl
        · rw [if_neg hst7, if_neg (fun h => hst7 ⟨h.1, h.2.1⟩)]
      · rw [if_neg hss, if_neg (fun h => hss h.2.2.symm)]

theorem qtyAccPres_processWmsRow (hs : WmsHeaders) (st : St) (r : Row) (s : String)
    (proj : Entry → ℚ)
    (hproj : ∀ r' q e, proj (wmsRowUpd hs r' q e) = proj e)
    (hnew : ∀ t, proj (newEntry t) = 0) :
    ((entryOf (processWmsRow hs st r).dataMap s).map proj).getD 0
      = ((entryOf st.dataMap s).map proj).getD 0 := by
  unfold processWmsRow
  cases hq : wmsQtyVal hs r with
  | none => rfl
  | some qty =>
    dsimp only
    by_cases hsku0 : wmsSku hs r = ""
    · rw [if_pos hsku0]
    · rw [if_neg hsku0]
      dsimp only
      rw [qtyAcc_update_ensure st.dataMap (wmsSku hs r) s (wmsRowUpd hs r qty)
          (wmsRowUpd_sku hs r qty) proj 0 (fun e => by rw [hproj, add_zero])
          (hnew _)]
      simp

theorem skuToCentro_processWmsRow (hs : WmsHeaders) (st : St) (r : Row) :
    (processWmsRow hs st r).skuToCentro = st.skuToCentro := by
  unfold processWmsRow
  split
  · rfl
  · split <;> rfl

theorem merma_processWmsRow (hs : WmsHeaders) (st : St) (r : Row) :
    (processWmsRow hs st r).merma = st.merma := by
  unfold processWmsRow
  split
  · rfl
  · split <;> rfl

theorem venc_processWmsRow (hs : WmsHeaders) (st : St) (r : Row) :
    (processWmsRow hs st r).venc = st.venc := by
  unfold processWmsRow
  split
  · rfl
  · split <;> rfl

theorem nodupKeys_processWmsRow (hs : WmsHeaders) (st : St) (r : Row)
    (h : (keysOf st.dataMap).Nodup) :
    (keysOf (processWmsRow hs st r).dataMap).Nodup := by
  unfold processWmsRow
  split
  · exact h
  · split
    · exact h
    · dsimp only
      exact nodupKeys_updateEntry _ _ _ (wmsRowUpd_sku hs r _)
        (nodupKeys_ensureSku _ _ h)

theorem goodKeys_processWmsRow (hs : WmsHeaders) (st : St) (r : Row)
    (h : ∀ e ∈ st.dataMap, e.sku ≠ "") :
    ∀ e ∈ (processWmsRow hs st r).dataMap, e.sku ≠ "" := by
  unfold processWmsRow
  split
  · exact h
  · split
    · exact h
    · dsimp only
      refine goodKeys_updateEntry _ _ _ (wmsRowUpd_sku hs r _) ?_
      exact goodKeys_ensureSku _ _ h (by assumption)

/-! ### Adjustments pass: step lemmas -/

theorem z42_not_difInv : "Z42" ∉ difInvMovs := by decide

theorem z44_not_difInv : "Z44" ∉ difInvMovs := by decide

theorem empty_not_difInv : "" ∉ difInvMovs := by decide

theorem adjustmentOf_processAdjRow (hs : AdjHeaders) (stc : List (String × String))
    (st : St) (r : Row) (s : String) (hsne : s ≠ "") :
    adjustmentOf (processAdjRow hs stc st r).dataMap s
      = adjustmentOf st.dataMap s + adjContrib hs s r := by
  unfold processAdjRow adjContrib adjustmentOf
  cases hq : adjQtyVal hs r with
  | none => simp [hq]
  | some qty =>
    dsimp only
    by_cases hempty : adjSku hs r = "" ∨ adjClaseMov hs r = ""
    · rw [if_pos hempty]
      have hz : ¬ (adjClaseMov hs r ∈ difInvMovs ∧ adjSku hs r = s) := by
        rintro ⟨h1, h2⟩
        rcases hempty with h3 | h3
        · exact hsne (h2 ▸ h3)
        · exact empty_not_difInv (h3 ▸ h1)
      simp [hz]
    · rw [if_neg hempty]
      by_cases hdif : adjClaseMov hs r ∈ difInvMovs
      · rw [if_pos hdif]
        dsimp only
        rw [qtyAcc_update_ensure st.dataMap (adjSku hs r) s (adjRowUpd qty)
            (adjRowUpd_sku qty) Entry.adjustment qty (adjRowUpd_adjustment qty)
            (by simp [newEntry])]
        by_cases hss : s = adjSku hs r
        · rw [if_pos hss, if_pos ⟨hdif, hss.symm⟩]
          rfl
        · rw [if_neg hss, if_neg (fun h => hss h.2.symm)]
      · have hz : ¬ (adjClaseMov hs r ∈ difInvMovs ∧ adjSku hs r = s) :=
          fun h => hdif h.1
        rw [if_neg hdif, if_neg hz]
        by_cases h42 : adjClaseMov hs r = "Z42"
        · rw [if_pos h42]
          simp
        · rw [if_neg h42]
          by_cases h44 : adjClaseMov hs r = "Z44"
          · rw [if_pos h44]
            simp
          · rw [if_neg h44]
            simp

theorem merma_processAdjRow (hs : AdjHeaders) (stc : List (String × String))
    (st : St) (r : Row) (c : String) :
    sumOf (processAdjRow hs stc st r).merma c
      = sumOf st.merma c + mermaContrib hs stc c r := by
  unfold processAdjRow mermaContrib
  cases hq : adjQtyVal hs r with
  | none => simp [hq]
  | some qty =>
    dsimp only
    by_cases hempty : adjSku hs r = "" ∨ adjClaseMov hs r = ""
    · rw [if_pos hempty]
      have hz : ¬ (adjSku hs r ≠ "" ∧ adjClaseMov hs r = "Z42"
          ∧ ((stc.lookup (adjSku hs r)).getD "INDEFINIDO") = c) := by
        rintro ⟨h1, h2, -⟩
        rcases hempty with h3 | h3
        · exact h1 h3
        · rw [h3] at h2
          exact absurd h2.symm (by decide)
      simp [hz]
    · rw [if_neg hempty]
      push_neg at hempty
      by_cases hdif : adjClaseMov hs r ∈ difInvMovs
      · rw [if_pos hdif]
        have h42 : adjClaseMov hs r ≠ "Z42" := fun h => z42_not_difInv (h ▸ hdif)
        have hz : ¬ (adjSku hs r ≠ "" ∧ adjClaseMov hs r = "Z42"
            ∧ ((stc.lookup (adjSku hs r)).getD "INDEFINIDO") = c) :=
          fun h => h42 h.2.1
        simp [hz]
      · rw [if_neg hdif]
        by_cases h42 : adjClaseMov hs r = "Z42"
        · rw [if_pos h42]
          dsimp only
          rw [sumOf_addToCentro]
          by_cases hcc : c = (stc.lookup (adjSku hs r)).getD "INDEFINIDO"
          · rw [if_pos hcc, if_pos ⟨hempty.1, h42, hcc.symm⟩]
            rfl
          · rw [if_neg hcc, if_neg (fun h => hcc h.2.2.symm)]
        · rw [if_neg h42]
          have hz : ¬ (adjSku hs r ≠ "" ∧ adjClaseMov hs r = "Z42"
              ∧ ((stc.lookup (adjSku hs r)).getD "INDEFINIDO") = c) :=
            fun h => h42 h.2.1
          by_cases h44 : adjClaseMov hs r = "Z44"
          · rw [if_pos h44]
            simp [hz]
          · rw [if_neg h44]
            simp [hz]

theorem venc_processAdjRow (hs : AdjHeaders) (stc : List (String × String))
    (st : St) (r : Row) (c : String) :
    sumOf (processAdjRow hs stc st r).venc c
      = sumOf st.venc c + vencContrib hs stc c r := by
  unfold processAdjRow vencContrib
  cases hq : adjQtyVal hs r with
  | none => simp [hq]
  | some qty =>
    dsimp only
    by_cases hempty : adjSku hs r = "" ∨ adjClaseMov hs r = ""
    · rw [if_pos hempty]
      have hz : ¬ (adjSku hs r ≠ "" ∧ adjClaseMov hs r = "Z44"
          ∧ ((stc.lookup (adjSku hs r)).getD "INDEFINIDO") = c) := by
        rintro ⟨h1, h2, -⟩
        rcases hempty with h3 | h3
        · exact h1 h3
        · rw [h3] at h2
          exact absurd h2.symm (by decide)
      simp [hz]
    · rw [if_neg hempty]
      push_neg at hempty
      by_cases hdif : adjClaseMov hs r ∈ difInvMovs
      · rw [if_pos hdif]
        have h44 : adjClaseMov hs r ≠ "Z44" := fun h => z44_not_difInv (h ▸ hdif)
        have hz : ¬ (adjSku hs r ≠ "" ∧ adjClaseMov hs r = "Z44"
            ∧ ((stc.lookup (adjSku hs r)).getD "INDEFINIDO") = c) :=
          fun h => h44 h.2.1
        simp [hz]
      · rw [if_neg hdif]
        by_cases h42 : adjClaseMov hs r = "Z42"
        · rw [if_pos h42]
          have h44 : adjClaseMov hs r ≠ "Z44" := by rw [h42]; decide
          have hz : ¬ (adjSku hs r ≠ "" ∧ adjClaseMov hs r = "Z44"
              ∧ ((stc.lookup (adjSku hs r)).getD "INDEFINIDO") = c) :=
            fun h => h44 h.2.1
          simp [hz]
        · rw [if_neg h42]
          by_cases h44 : adjClaseMov hs r = "Z44"
          · rw [if_pos h44]
            dsimp only
            rw [sumOf_addToCentro]
            by_cases hcc : c = (stc.lookup (adjSku hs r)).getD "INDEFINIDO"
            · rw [if_pos hcc, if_pos ⟨hempty.1, h44, hcc.symm⟩]
              rfl
            · rw [if_neg hcc, if_neg (fun h => hcc h.2.2.symm)]
          · rw [if_neg h44]
            have hz : ¬ (adjSku hs r ≠ "" ∧ adjClaseMov hs r = "Z44"
                ∧ ((stc.lookup (adjSku hs r)).getD "INDEFINIDO") = c) :=
              fun h => h44 h.2.1
            simp [hz]

theorem qtyAccPres_processAdjRow (hs : AdjHeaders) (stc : List (String × String))
    (st : St) (r : Row) (s : String) (proj : Entry → ℚ)
    (hproj : ∀ q e, proj (adjRowUpd q e) = proj e)
    (hnew : ∀ t, proj (newEntry t) = 0) :
    ((entryOf (processAdjRow hs stc st r).dataMap s).map proj).getD 0
      = ((entryOf st.dataMap s).map proj).getD 0 := by
  unfold processAdjRow
  cases hq : adjQtyVal hs r with
  | none => rfl
  | some qty =>
    dsimp only
    by_cases hempty : adjSku hs r = "" ∨ adjClaseMov hs r = ""
    · rw [if_pos hempty]
    · rw [if_neg hempty]
      by_cases hdif : adjClaseMov hs r ∈ difInvMovs
      · rw [if_pos hdif]
        dsimp only
        rw [qtyAcc_update_ensure st.dataMap (adjSku hs r) s (adjRowUpd qty)
            (adjRowUpd_sku qty) proj 0 (fun e => by rw [hproj, add_zero])
            (hnew _)]
        simp
      · rw [if_neg hdif]
        by_cases h42 : adjClaseMov hs r = "Z42"
        · rw [if_pos h42]
        · rw [if_neg h42]
          by_cases h44 : adjClaseMov hs r = "Z44"
          · rw [if_pos h44]
          · rw [if_neg h44]

theorem skuToCentro_processAdjRow (hs : AdjHeaders) (stc : List (String × String))
    (st : St) (r : Row) :
    (processAdjRow hs stc st r).skuToCentro = st.skuToCentro := by
  unfold processAdjRow
  repeat' (first | rfl | split | dsimp only)

theorem nodupKeys_processAdjRow (hs : AdjHeaders) (stc : List (String × String))
    (st : St) (r : Row) (h : (keysOf st.dataMap).Nodup) :
    (keysOf (processAdjRow hs stc st r).dataMap).Nodup := by
  unfold processAdjRow
  split
  · exact h
  · split
    · exact h
    · dsimp only
      split
      · exact nodupKeys_updateEntry _ _ _ (adjRowUpd_sku _)
          (nodupKeys_ensureSku _ _ h)
      · split
        · exact h
        · split <;> exact h

theorem goodKeys_processAdjRow (hs : AdjHeaders) (stc : List (String × String))
    (st : St) (r : Row) (h : ∀ e ∈ st.dataMap, e.sku ≠ "") :
    ∀ e ∈ (processAdjRow hs stc st r).dataMap, e.sku ≠ "" := by
  unfold processAdjRow
  split
  · exact h
  · rename_i qty heq
    split
    · exact h
    · rename_i hempty
      dsimp only
      split
      · refine goodKeys_updateEntry _ _ _ (adjRowUpd_sku _) ?_
        refine goodKeys_ensureSku _ _ h ?_
        intro hcontra
        exact hempty (Or.inl hcontra)
      · split
        · exact h
        · split <;> exact h

/-! ### Invariant fold lemma -/

theorem foldl_inv {σ β : Type} (g : σ → β → σ) (P : σ → Prop)
    (h : ∀ st r, P st → P (g st r)) :
    ∀ (rows : List β) (st : σ), P st → P (rows.foldl g st) := by
  intro rows
  induction rows with
  | nil => intro st hP; exact hP
  | cons r rows ih => intro st hP; exact ih _ (h st r hP)

/-! ### Pass-level characterizations -/

theorem sapQtyOf_processSap (hs : SapHeaders) (rows : List Row) (st : St) (s : String)
    (hsne : s ≠ "") :
    sapQtyOf (processSap hs rows st).dataMap s
      = sapQtyOf st.dataMap s + sapSum hs rows s := by
  rw [sapSum_eq_map]
  exact foldl_add_of_step (processSapRow hs) (fun st => sapQtyOf st.dataMap s)
    (sapContrib hs s) (fun st r => sapQtyOf_processSapRow hs st r s hsne) rows st

theorem wmsQtyOf_processSap (hs : SapHeaders) (rows : List Row) (st : St) (s : String) :
    wmsQtyOf (processSap hs rows st).dataMap s = wmsQtyOf st.dataMap s :=
  foldl_pres (processSapRow hs) (fun st => wmsQtyOf st.dataMap s)
    (fun st r => qtyAccPres_processSapRow hs st r s Entry.wmsQty
      (fun r' q e => sapRowUpd_wmsQty hs r' q e) (fun t => by simp [newEntry])) rows st

theorem adjustmentOf_processSap (hs : SapHeaders) (rows : List Row) (st : St) (s : String) :
    adjustmentOf (processSap hs rows st).dataMap s = adjustmentOf st.dataMap s :=
  foldl_pres (processSapRow hs) (fun st => adjustmentOf st.dataMap s)
    (fun st r => qtyAccPres_processSapRow hs st r s Entry.adjustment
      (fun r' q e => sapRowUpd_adjustment hs r' q e) (fun t => by simp [newEntry])) rows st

theorem trasladoOf_processSap (hs : SapHeaders) (rows : List Row) (st : St) (s : String) :
    trasladoOf (processSap hs rows st).dataMap s = trasladoOf st.dataMap s :=
  foldl_pres (processSapRow hs) (fun st => trasladoOf st.dataMap s)
    (fun st r => qtyAccPres_processSapRow hs st r s Entry.stockParaTraslado
      (fun r' q e => sapRowUpd_traslado hs r' q e) (fun t => by simp [newEntry])) rows st

theorem merma_processSap (hs : SapHeaders) (rows : List Row) (st : St) :
    (processSap hs rows st).merma = st.merma :=
  foldl_pres (processSapRow hs) St.merma (merma_processSapRow hs) rows st

theorem venc_processSap (hs : SapHeaders) (rows : List Row) (st : St) :
    (processSap hs rows st).venc = st.venc :=
  foldl_pres (processSapRow hs) St.venc (venc_processSapRow hs) rows st

theorem nodupKeys_processSap (hs : SapHeaders) (rows : List Row) (st : St)
    (h : (keysOf st.dataMap).Nodup) :
    (keysOf (processSap hs rows st).dataMap).Nodup :=
  foldl_inv (processSapRow hs) (fun st => (keysOf st.dataMap).Nodup)
    (fun st r => nodupKeys_processSapRow hs st r) rows st h

theorem goodKeys_processSap (hs : SapHeaders) (rows : List Row) (st : St)
    (h : ∀ e ∈ st.dataMap, e.sku ≠ "") :
    ∀ e ∈ (processSap hs rows st).dataMap, e.sku ≠ "" :=
  foldl_inv (processSapRow hs) (fun st => ∀ e ∈ st.dataMap, e.sku ≠ "")
    (fun st r => goodKeys_processSapRow hs st r) rows st h

theorem wmsQtyOf_processWms (hs : WmsHeaders) (rows : List Row) (st : St) (s : String)
    (hsne : s ≠ "") :
    wmsQtyOf (processWms hs rows st).dataMap s
      = wmsQtyOf st.dataMap s + wmsSum hs rows s := by
  rw [wmsSum_eq_map]
  exact foldl_add_of_step (processWmsRow hs) (fun st => wmsQtyOf st.dataMap s)
    (wmsContrib hs s) (fun st r => wmsQtyOf_processWmsRow hs st r s hsne) rows st

theorem trasladoOf_processWms (hs : WmsHeaders) (rows : List Row) (st : St) (s : String)
    (hsne : s ≠ "") :
    trasladoOf (processWms hs rows st).dataMap s
      = trasladoOf st.dataMap s + trasSum hs rows s :=
  foldl_add_of_step (processWmsRow hs) (fun st => trasladoOf st.dataMap s)
    (trasContrib hs s) (fun st r => trasladoOf_processWmsRow hs st r s hsne) rows st

theorem sapQtyOf_processWms (hs : WmsHeaders) (rows : List Row) (st : St) (s : String) :
    sapQtyOf (processWms hs rows st).dataMap s = sapQtyOf st.dataMap s :=
  foldl_pres (processWmsRow hs) (fun st => sapQtyOf st.dataMap s)
    (fun st r => qtyAccPres_processWmsRow hs st r s Entry.sapQty
      (fun r' q e => wmsRowUpd_sapQty hs r' q e) (fun t => by simp [newEntry])) rows st

theorem adjustmentOf_processWms (hs : WmsHeaders) (rows : List Row) (st : St) (s : String) :
    adjustmentOf (processWms hs rows st).dataMap s = adjustmentOf st.dataMap s :=
  foldl_pres (processWmsRow hs) (fun st => adjustmentOf st.dataMap s)
    (fun st r => qtyAccPres_processWmsRow hs st r s Entry.adjustment
      (fun r' q e => wmsRowUpd_adjustment hs r' q e) (fun t => by simp [newEntry])) rows st

theorem skuToCentro_processWms (hs : WmsHeaders) (rows : List Row) (st : St) :
    (processWms hs rows st).skuToCentro = st.skuToCentro :=
  foldl_pres (processWmsRow hs) St.skuToCentro (skuToCentro_processWmsRow hs) rows st

theorem merma_processWms (hs : WmsHeaders) (rows : List Row) (st : St) :
    (processWms hs rows st).merma = st.merma :=
  foldl_pres (processWmsRow hs) St.merma (merma_processWmsRow hs) rows st

theorem venc_processWms (hs : WmsHeaders) (rows : List Row) (st : St) :
    (processWms hs rows st).venc = st.venc :=
  foldl_pres (processWmsRow hs) St.venc (venc_processWmsRow hs) rows st

theorem nodupKeys_processWms (hs : WmsHeaders) (rows : List Row) (st : St)
    (h : (keysOf st.dataMap).Nodup) :
    (keysOf (processWms hs rows st).dataMap).Nodup :=
  foldl_inv (processWmsRow hs) (fun st => (keysOf st.dataMap).Nodup)
    (fun st r => nodupKeys_processWmsRow hs st r) rows st h

theorem goodKeys_processWms (hs : WmsHeaders) (rows : List Row) (st : St)
    (h : ∀ e ∈ st.dataMap, e.sku ≠ "") :
    ∀ e ∈ (processWms hs rows st).dataMap, e.sku ≠ "" :=
  foldl_inv (processWmsRow hs) (fun st => ∀ e ∈ st.dataMap, e.sku ≠ "")
    (fun st r => goodKeys_processWmsRow hs st r) rows st h

theorem adjustmentOf_processAdj (hs : AdjHeaders) (stc : List (String × String))
    (rows : List Row) (st : St) (s : String) (hsne : s ≠ "") :
    adjustmentOf (processAdj hs stc rows st).dataMap s
      = adjustmentOf st.dataMap s + adjSum hs rows s :=
  foldl_add_of_step (processAdjRow hs stc) (fun st => adjustmentOf st.dataMap s)
    (adjContrib hs s) (fun st r => adjustmentOf_processAdjRow hs stc st r s hsne) rows st

theorem mermaOf_processAdj (hs : AdjHeaders) (stc : List (String × String))
    (rows : List Row) (st : St) (c : String) :
    sumOf (processAdj hs stc rows st).merma c
      = sumOf st.merma c + mermaSum hs stc rows c :=
  foldl_add_of_step (processAdjRow hs stc) (fun st => sumOf st.merma c)
    (mermaContrib hs stc c) (fun st r => merma_processAdjRow hs stc st r c) rows st

theorem vencOf_processAdj (hs : AdjHeaders) (stc : List (String × String))
    (rows : List Row) (st : St) (c : String) :
    sumOf (processAdj hs stc rows st).venc c
      = sumOf st.venc c + vencSum hs stc rows c :=
  foldl_add_of_step (processAdjRow hs stc) (fun st => sumOf st.venc c)
    (vencContrib hs stc c) (fun st r => venc_processAdjRow hs stc st r c) rows st

theorem sapQtyOf_processAdj (hs : AdjHeaders) (stc : List (String × String))
    (rows : List Row) (st : St) (s : String) :
    sapQtyOf (processAdj hs stc rows st).dataMap s = sapQtyOf st.dataMap s :=
  foldl_pres (processAdjRow hs stc) (fun st => sapQtyOf st.dataMap s)
    (fun st r => qtyAccPres_processAdjRow hs stc st r s Entry.sapQty
      (fun q e => rfl) (fun t => by simp [newEntry])) rows st

theorem wmsQtyOf_processAdj (hs : AdjHeaders) (stc : List (String × String))
    (rows : List Row) (st : St) (s : String) :
    wmsQtyOf (processAdj hs stc rows st).dataMap s = wmsQtyOf st.dataMap s :=
  foldl_pres (processAdjRow hs stc) (fun st => wmsQtyOf st.dataMap s)
    (fun st r => qtyAccPres_processAdjRow hs stc st r s Entry.wmsQty
      (fun q e => rfl) (fun t => by simp [newEntry])) rows st

theorem trasladoOf_processAdj (hs : AdjHeaders) (stc : List (String × String))
    (rows : List Row) (st : St) (s : String) :
    trasladoOf (processAdj hs stc rows st).dataMap s = trasladoOf st.dataMap s :=
  foldl_pres (processAdjRow hs stc) (fun st => trasladoOf st.dataMap s)
    (fun st r => qtyAccPres_processAdjRow hs stc st r s Entry.stockParaTraslado
      (fun q e => rfl) (fun t => by simp [newEntry])) rows st

theorem skuToCentro_processAdj (hs : AdjHeaders) (stc : List (String × String))
    (rows : List Row) (st : St) :
    (processAdj hs stc rows st).skuToCentro = st.skuToCentro :=
  foldl_pres (processAdjRow hs stc) St.skuToCentro
    (skuToCentro_processAdjRow hs stc) rows st

theorem nodupKeys_processAdj (hs : AdjHeaders) (stc : List (String × String))
    (rows : List Row) (st : St) (h : (keysOf st.dataMap).Nodup) :
    (keysOf (processAdj hs stc rows st).dataMap).Nodup :=
  foldl_inv (processAdjRow hs stc) (fun st => (keysOf st.dataMap).Nodup)
    (fun st r => nodupKeys_processAdjRow hs stc st r) rows st h

theorem goodKeys_processAdj (hs : AdjHeaders) (stc : List (String × String))
    (rows : List Row) (st : St) (h : ∀ e ∈ st.dataMap, e.sku ≠ "") :
    ∀ e ∈ (processAdj hs stc rows st).dataMap, e.sku ≠ "" :=
  foldl_inv (processAdjRow hs stc) (fun st => ∀ e ∈ st.dataMap, e.sku ≠ "")
    (fun st r => goodKeys_processAdjRow hs stc st r) rows st h

/-! ### Step characterizations -/

theorem stepSap_ok (sap : List Row) (st st' : St) :
    stepSap sap st = Except.ok st' ↔
      ∃ f1 t1, sap = f1 :: t1 ∧ sapMissing f1 = []
        ∧ st' = processSap (sapHeadersOf f1) sap st := by
  unfold stepSap readFile
  cases sap with
  | nil => simp
  | cons f1 t1 =>
    rw [if_neg (by simp)]
    dsimp only
    by_cases hm : sapMissing f1 = []
    · rw [if_pos hm]
      constructor
      · intro h
        exact ⟨f1, t1, rfl, hm, (Except.ok.injEq _ _ ▸ h).symm⟩
      · rintro ⟨g1, u1, heq, hm2, hst⟩
        cases heq
        rw [hst]
    · rw [if_neg hm]
      constructor
      · intro h
        cases h
      · rintro ⟨g1, u1, heq, hm2, -⟩
        cases heq
        exact absurd hm2 hm

theorem stepWms_ok (wms : List Row) (st st' : St) :
    stepWms wms st = Except.ok st' ↔
      ∃ f2 t2, wms = f2 :: t2 ∧ wmsMissing f2 = []
        ∧ st' = processWms (wmsHeadersOf f2) wms st := by
  unfold stepWms readFile
  cases wms with
  | nil => simp
  | cons f2 t2 =>
    rw [if_neg (by simp)]
    dsimp only
    by_cases hm : wmsMissing f2 = []
    · rw [if_pos hm]
      constructor
      · intro h
        exact ⟨f2, t2, rfl, hm, (Except.ok.injEq _ _ ▸ h).symm⟩
      · rintro ⟨g2, u2, heq, hm2, hst⟩
        cases heq
        rw [hst]
    · rw [if_neg hm]
      constructor
      · intro h
        cases h
      · rintro ⟨g2, u2, heq, hm2, -⟩
        cases heq
        exact absurd hm2 hm

theorem stepAdj_ok_some (adj : Option (List Row)) (st st' : St) :
    stepAdj adj st = Except.ok (some st') ↔
      (adj = none ∧ st' = st)
      ∨ ∃ f3 t3, adj = some (f3 :: t3) ∧ adjMissing f3 = []
          ∧ st' = processAdj (adjHeadersOf f3) st.skuToCentro (f3 :: t3) st := by
  unfold stepAdj readFile
  cases adj with
  | none =>
    constructor
    · intro h
      rw [Except.ok.injEq, Option.some.injEq] at h
      exact Or.inl ⟨rfl, h.symm⟩
    · rintro (⟨-, hst⟩ | ⟨f3, t3, heq, -, -⟩)
      · rw [hst]
      · cases heq
  | some rows =>
    cases rows with
    | nil => simp
    | cons f3 t3 =>
      dsimp only
      rw [if_neg (by simp)]
      dsimp only
      by_cases hm : adjMissing f3 = []
      · rw [if_pos hm]
        simp only [Except.ok.injEq, Option.some.injEq]
        constructor
        · intro h
          exact Or.inr ⟨f3, t3, rfl, hm, h.symm⟩
        · rintro (⟨heq, -⟩ | ⟨g3, u3, heq, -, hst⟩)
          · cases heq
          · cases heq
            rw [hst]
      · rw [if_neg hm]
        constructor
        · intro h
          simp at h
        · rintro (⟨heq, -⟩ | ⟨g3, u3, heq, hm2, -⟩)
          · cases heq
          · cases heq
            exact absurd hm2 hm

theorem stepAdj_ok_none (adj : Option (List Row)) (st : St) :
    stepAdj adj st = Except.ok none ↔
      ∃ f3 t3, adj = some (f3 :: t3) ∧ adjMissing f3 ≠ [] := by
  unfold stepAdj readFile
  cases adj with
  | none =>
    simp
  | some rows =>
    cases rows with
    | nil => simp
    | cons f3 t3 =>
      dsimp only
      rw [if_neg (by simp)]
      dsimp only
      by_cases hm : adjMissing f3 = []
      · rw [if_pos hm]
        constructor
        · intro h
          simp at h
        · rintro ⟨g3, u3, heq, hm2⟩
          cases heq
          exact absurd hm hm2
      · rw [if_neg hm]
        constructor
        · intro h
          exact ⟨f3, t3, rfl, hm⟩
        · intro h
          rfl

/-- The accumulator state after the SAP and WMS passes, when both
header rows resolve. -/
def pipelineSt (f1 : Row) (sap : List Row) (f2 : Row) (wms : List Row) : St :=
  processWms (wmsHeadersOf f2) wms (processSap (sapHeadersOf f1) sap emptySt)

theorem runPipeline_ok_cases (sap wms : List Row) (adj : Option (List Row)) (st : St)
    (h : runPipeline sap wms adj = Except.ok (some st)) :
    ∃ f1 t1 f2 t2, sap = f1 :: t1 ∧ wms = f2 :: t2
      ∧ sapMissing f1 = [] ∧ wmsMissing f2 = []
      ∧ ((adj = none ∧ st = pipelineSt f1 sap f2 wms)
         ∨ ∃ f3 t3, adj = some (f3 :: t3) ∧ adjMissing f3 = []
             ∧ st = processAdj (adjHeadersOf f3) (pipelineSt f1 sap f2 wms).skuToCentro
                 (f3 :: t3) (pipelineSt f1 sap f2 wms)) := by
  unfold runPipeline at h
  cases h1 : stepSap sap emptySt with
  | error m => rw [h1] at h; cases h
  | ok st1 =>
    rw [h1] at h
    dsimp only at h
    cases h2 : stepWms wms st1 with
    | error m => rw [h2] at h; cases h
    | ok st2 =>
      rw [h2] at h
      dsimp only at h
      rcases (stepSap_ok sap emptySt st1).mp h1 with ⟨f1, t1, hsap, hm1, hst1⟩
      rcases (stepWms_ok wms st1 st2).mp h2 with ⟨f2, t2, hwms, hm2, hst2⟩
      have hps : st2 = pipelineSt f1 sap f2 wms := by
        rw [hst2, hst1, pipelineSt]
      rcases (stepAdj_ok_some adj st2 st).mp h with hnone | ⟨f3, t3, hadj, hm3, hst3⟩
      · exact ⟨f1, t1, f2, t2, hsap, hwms, hm1, hm2,
          Or.inl ⟨hnone.1, by rw [hnone.2, hps]⟩⟩
      · refine ⟨f1, t1, f2, t2, hsap, hwms, hm1, hm2, Or.inr ⟨f3, t3, hadj, hm3, ?_⟩⟩
        rw [hst3, hps]

theorem generateAnalysisFile_ok (sap wms : List Row) (adj : Option (List Row))
    (out : Output) :
    generateAnalysisFile sap wms adj = Except.ok (some out) ↔
      ∃ st, runPipeline sap wms adj = Except.ok (some st) ∧ out = mkOutput st := by
  unfold generateAnalysisFile
  cases h : runPipeline sap wms adj with
  | error m =>
    constructor
    · intro hc; cases hc
    · rintro ⟨st, hst, -⟩; cases hst
  | ok o =>
    cases o with
    | none =>
      constructor
      · intro hc; cases hc
      · rintro ⟨st, hst, -⟩; cases hst
    | some st =>
      constructor
      · intro hc
        rw [Except.ok.injEq, Option.some.injEq] at hc
        exact ⟨st, rfl, hc.symm⟩
      · rintro ⟨st2, hst, hout⟩
        rw [Except.ok.injEq, Option.some.injEq] at hst
        rw [hout, hst]

/-! ### Final-state characterization -/

theorem pipelineSt_skuToCentro (f1 : Row) (sap : List Row) (f2 : Row) (wms : List Row) :
    (pipelineSt f1 sap f2 wms).skuToCentro
      = (processSap (sapHeadersOf f1) sap emptySt).skuToCentro := by
  unfold pipelineSt
  rw [skuToCentro_processWms]

theorem final_state_fields (sap wms : List Row) (adj : Option (List Row)) (st : St)
    (h : runPipeline sap wms adj = Except.ok (some st)) :
    (keysOf st.dataMap).Nodup ∧ (∀ e ∈ st.dataMap, e.sku ≠ "")
      ∧ ∃ f1 t1 f2 t2, sap = f1 :: t1 ∧ wms = f2 :: t2
          ∧ sapMissing f1 = [] ∧ wmsMissing f2 = []
          ∧ ∀ s, s ≠ "" →
              sapQtyOf st.dataMap s = sapSum (sapHeadersOf f1) sap s
              ∧ wmsQtyOf st.dataMap s = wmsSum (wmsHeadersOf f2) wms s
              ∧ trasladoOf st.dataMap s = trasSum (wmsHeadersOf f2) wms s := by
  rcases runPipeline_ok_cases sap wms adj st h with
    ⟨f1, t1, f2, t2, hsap, hwms, hm1, hm2, hcase⟩
  have hnd0 : (keysOf (pipelineSt f1 sap f2 wms).dataMap).Nodup := by
    unfold pipelineSt
    exact nodupKeys_processWms _ _ _ (nodupKeys_processSap _ _ _ (by simp [keysOf, emptySt]))
  have hgk0 : ∀ e ∈ (pipelineSt f1 sap f2 wms).dataMap, e.sku ≠ "" := by
    unfold pipelineSt
    exact goodKeys_processWms _ _ _ (goodKeys_processSap _ _ _ (by simp [emptySt]))
  have hfields0 : ∀ s, s ≠ "" →
      sapQtyOf (pipelineSt f1 sap f2 wms).dataMap s = sapSum (sapHeadersOf f1) sap s
      ∧ wmsQtyOf (pipelineSt f1 sap f2 wms).dataMap s = wmsSum (wmsHeadersOf f2) wms s
      ∧ trasladoOf (pipelineSt f1 sap f2 wms).dataMap s = trasSum (wmsHeadersOf f2) wms s := by
    intro s hsne
    unfold pipelineSt
    refine ⟨?_, ?_, ?_⟩
    · rw [sapQtyOf_processWms, sapQtyOf_processSap _ _ _ _ hsne]
      simp [sapQtyOf, entryOf, emptySt]
    · rw [wmsQtyOf_processWms _ _ _ _ hsne, wmsQtyOf_processSap]
      simp [wmsQtyOf, entryOf, emptySt]
    · rw [trasladoOf_processWms _ _ _ _ hsne, trasladoOf_processSap]
      simp [trasladoOf, entryOf, emptySt]
  rcases hcase with ⟨-, hst⟩ | ⟨f3, t3, hadj, hm3, hst⟩
  · subst hst
    exact ⟨hnd0, hgk0, f1, t1, f2, t2, hsap, hwms, hm1, hm2, hfields0⟩
  · subst hst
    refine ⟨nodupKeys_processAdj _ _ _ _ hnd0, goodKeys_processAdj _ _ _ _ hgk0,
      f1, t1, f2, t2, hsap, hwms, hm1, hm2, ?_⟩
    intro s hsne
    rcases hfields0 s hsne with ⟨hq1, hq2, hq3⟩
    exact ⟨by rw [sapQtyOf_processAdj, hq1],
      by rw [wmsQtyOf_processAdj, hq2],
      by rw [trasladoOf_processAdj, hq3]⟩

/-! ### Report lemmas -/

theorem mkReportRow_sku (stc : List (String × String)) (e : Entry) :
    (mkReportRow stc e).sku = e.sku := rfl

theorem mkReportRow_stockSAP (stc : List (String × String)) (e : Entry) :
    (mkReportRow stc e).stockSAP = e.sapQty := rfl

theorem mkReportRow_stockWMS (stc : List (String × String)) (e : Entry) :
    (mkReportRow stc e).stockWMS = e.wmsQty := rfl

theorem mkReportRow_diferencia (stc : List (String × String)) (e : Entry) :
    (mkReportRow stc e).diferencia = e.wmsQty - e.sapQty := rfl

theorem mkReportRow_ajuste (stc : List (String × String)) (e : Entry) :
    (mkReportRow stc e).ajuste = e.adjustment := rfl

theorem mem_buildReport (st : St) (rr : ReportRow) :
    rr ∈ buildReport st ↔
      ∃ e ∈ st.dataMap, rr = mkReportRow st.skuToCentro e
        ∧ (e.sapQty ≠ 0 ∨ e.wmsQty ≠ 0 ∨ e.adjustment ≠ 0) := by
  unfold buildReport
  rw [List.mem_filter]
  constructor
  · rintro ⟨hmem, hkeep⟩
    rcases List.mem_map.mp hmem with ⟨e, he, rfl⟩
    refine ⟨e, he, rfl, ?_⟩
    unfold keepRow at hkeep
    rw [decide_eq_true_eq] at hkeep
    simpa [mkReportRow_stockSAP, mkReportRow_stockWMS, mkReportRow_ajuste] using hkeep
  · rintro ⟨e, he, rfl, hnz⟩
    refine ⟨List.mem_map.mpr ⟨e, he, rfl⟩, ?_⟩
    unfold keepRow
    rw [decide_eq_true_eq]
    simpa [mkReportRow_stockSAP, mkReportRow_stockWMS, mkReportRow_ajuste] using hnz

theorem mkOutput_analysisReport (st : St) :
    (mkOutput st).analysisReport = buildReport st := rfl

/-! ## Claim theorems -/

/-- C1: for every row of the final analysis report, `Stock SAP` is the
sum of the parsed quantity values over the SAP rows carrying that SKU
whose area-SAP value (trimmed, upper-cased) is `PT01`, and `Stock WMS`
is the corresponding sum over the WMS rows; rows in other areas
contribute nothing to either sum (the sums range only over `PT01`
rows). -/
theorem c1_stock_sums (sap wms : List Row) (adj : Option (List Row)) (out : Output)
    (f1 : Row) (t1 : List Row) (f2 : Row) (t2 : List Row)
    (h : generateAnalysisFile sap wms adj = Except.ok (some out))
    (hsap : sap = f1 :: t1) (hwms : wms = f2 :: t2) :
    ∀ rr ∈ out.analysisReport,
      rr.stockSAP = sapSum (sapHeadersOf f1) sap rr.sku
      ∧ rr.stockWMS = wmsSum (wmsHeadersOf f2) wms rr.sku := by
  rcases (generateAnalysisFile_ok sap wms adj out).mp h with ⟨st, hrun, hout⟩
  rcases final_state_fields sap wms adj st hrun with
    ⟨hnd, hgk, g1, u1, g2, u2, hsap', hwms', -, -, hfields⟩
  rw [hsap] at hsap'
  rw [hwms] at hwms'
  cases hsap'
  cases hwms'
  intro rr hrr
  rw [hout, mkOutput_analysisReport] at hrr
  rcases (mem_buildReport st rr).mp hrr with ⟨e, he, rfl, -⟩
  have hsne : e.sku ≠ "" := hgk e he
  have hent : entryOf st.dataMap e.sku = some e := entryOf_eq_some_of_mem hnd he
  rcases hfields e.sku hsne with ⟨h1, h2, -⟩
  constructor
  · rw [mkReportRow_stockSAP, mkReportRow_sku, ← h1]
    unfold sapQtyOf
    rw [hent]
    rfl
  · rw [mkReportRow_stockWMS, mkReportRow_sku, ← h2]
    unfold wmsQtyOf
    rw [hent]
    rfl

def wSap : List Row :=
  [[("Material", "A"), ("Cantidad", "5"), ("Almacén", "PT01"), ("Centro", "C1")]]

def wSapFirst : Row :=
  [("Material", "A"), ("Cantidad", "5"), ("Almacén", "PT01"), ("Centro", "C1")]

def wWms : List Row :=
  [[("Material", "A"), ("Cantidad", "3"), ("Área", "X"), ("Ubicación", "1"),
    ("Area SAP", "PT01")]]

def wWmsFirst : Row :=
  [("Material", "A"), ("Cantidad", "3"), ("Área", "X"), ("Ubicación", "1"),
   ("Area SAP", "PT01")]

def wRow : ReportRow :=
  { centro := "C1", descAlmacen := "PT01", sku := "A", nombreProd := "",
    stockSAP := 5, stockWMS := 3, diferencia := -2, ajuste := 0,
    stockParaTraslado := 0 }

def wOut : Output :=
  { analysisReport := [wRow],
    mermaReport := [], vencimientoReport := [],
    workbookMermaSheet := none, workbookVencSheet := none,
    summaryChartData := [], diferenciaReport := [] }

unseal Nat.gcd Rat.add Rat.sub Rat.mul Rat.inv in
theorem c1_stock_sums_witness :
    generateAnalysisFile wSap wWms none = Except.ok (some wOut)
    ∧ ∀ rr ∈ wOut.analysisReport,
        rr.stockSAP = sapSum (sapHeadersOf wSapFirst) wSap rr.sku
        ∧ rr.stockWMS = wmsSum (wmsHeadersOf wWmsFirst) wWms rr.sku :=
  ⟨rfl, c1_stock_sums wSap wWms none wOut wSapFirst [] wWmsFirst []
    rfl rfl rfl⟩

/-- C2: every row of the analysis report has
`Diferencia = Stock WMS - Stock SAP`. -/
theorem c2_diferencia (sap wms : List Row) (adj : Option (List Row)) (out : Output)
    (h : generateAnalysisFile sap wms adj = Except.ok (some out)) :
    ∀ rr ∈ out.analysisReport, rr.diferencia = rr.stockWMS - rr.stockSAP := by
  rcases (generateAnalysisFile_ok sap wms adj out).mp h with ⟨st, hrun, hout⟩
  intro rr hrr
  rw [hout, mkOutput_analysisReport] at hrr
  rcases (mem_buildReport st rr).mp hrr with ⟨e, he, rfl, -⟩
  rw [mkReportRow_diferencia, mkReportRow_stockWMS, mkReportRow_stockSAP]

unseal Nat.gcd Rat.add Rat.sub Rat.mul Rat.inv in
theorem c2_diferencia_witness :
    generateAnalysisFile wSap wWms none = Except.ok (some wOut)
    ∧ ∀ rr ∈ wOut.analysisReport, rr.diferencia = rr.stockWMS - rr.stockSAP :=
  ⟨rfl, c2_diferencia wSap wWms none wOut rfl⟩

/-- C5: a SKU accumulated in `dataMap` appears in the final analysis
report exactly when its `Stock SAP`, `Stock WMS` or
`Ajuste Mensual (Dif. Inventario)` is nonzero; in particular an entry
whose only nonzero field is `Stock para Traslado` yields no report
row. -/
theorem c5_report_filter (sap wms : List Row) (adj : Option (List Row)) (st : St)
    (out : Output)
    (hrun : runPipeline sap wms adj = Except.ok (some st))
    (h : generateAnalysisFile sap wms adj = Except.ok (some out)) :
    (∀ s, (∃ rr ∈ out.analysisReport, rr.sku = s) ↔
       ∃ e ∈ st.dataMap, e.sku = s ∧ (e.sapQty ≠ 0 ∨ e.wmsQty ≠ 0 ∨ e.adjustment ≠ 0))
    ∧ ∀ e ∈ st.dataMap, e.sapQty = 0 → e.wmsQty = 0 → e.adjustment = 0 →
        ∀ rr ∈ out.analysisReport, rr.sku ≠ e.sku := by
  rcases (generateAnalysisFile_ok sap wms adj out).mp h with ⟨st', hrun', hout⟩
  rw [hrun] at hrun'
  rw [Except.ok.injEq, Option.some.injEq] at hrun'
  subst hrun'
  have hnd : (keysOf st.dataMap).Nodup := (final_state_fields sap wms adj st hrun).1
  constructor
  · intro s
    constructor
    · rintro ⟨rr, hrr, hsku⟩
      rw [hout, mkOutput_analysisReport] at hrr
      rcases (mem_buildReport st rr).mp hrr with ⟨e, he, rfl, hnz⟩
      exact ⟨e, he, by rw [← hsku, mkReportRow_sku], hnz⟩
    · rintro ⟨e, he, hsku, hnz⟩
      refine ⟨mkReportRow st.skuToCentro e, ?_, by rw [mkReportRow_sku, hsku]⟩
      rw [hout, mkOutput_analysisReport]
      exact (mem_buildReport st _).mpr ⟨e, he, rfl, hnz⟩
  · intro e he hz1 hz2 hz3 rr hrr
    rw [hout, mkOutput_analysisReport] at hrr
    rcases (mem_buildReport st rr).mp hrr with ⟨e', he', rfl, hnz⟩
    rw [mkReportRow_sku]
    intro hcontra
    have h1 : entryOf st.dataMap e.sku = some e := entryOf_eq_some_of_mem hnd he
    have h2 : entryOf st.dataMap e'.sku = some e' := entryOf_eq_some_of_mem hnd he'
    rw [hcontra, h1] at h2
    rw [Option.some.injEq] at h2
    subst h2
    rcases hnz with hc | hc | hc
    · exact hc hz1
    · exact hc hz2
    · exact hc hz3

def w5Wms : List Row :=
  [[("Material", "A"), ("Cantidad", "3"), ("Área", "X"), ("Ubicación", "1"),
    ("Area SAP", "PT01")],
   [("Material", "B"), ("Cantidad", "4"), ("Área", "AREA STAGE 1"), ("Ubicación", "77"),
    ("Area SAP", "QQ")]]

def w5WmsFirst : Row :=
  [("Material", "A"), ("Cantidad", "3"), ("Área", "X"), ("Ubicación", "1"),
   ("Area SAP", "PT01")]

unseal Nat.gcd Rat.add Rat.sub Rat.mul Rat.inv in
theorem c5_report_filter_witness :
    (∀ s, (∃ rr ∈ wOut.analysisReport, rr.sku = s) ↔
       ∃ e ∈ (pipelineSt wSapFirst wSap w5WmsFirst w5Wms).dataMap,
         e.sku = s ∧ (e.sapQty ≠ 0 ∨ e.wmsQty ≠ 0 ∨ e.adjustment ≠ 0))
    ∧ ∀ e ∈ (pipelineSt wSapFirst wSap w5WmsFirst w5Wms).dataMap,
        e.sapQty = 0 → e.wmsQty = 0 → e.adjustment = 0 →
          ∀ rr ∈ wOut.analysisReport, rr.sku ≠ e.sku :=
  c5_report_filter wSap w5Wms none (pipelineSt wSapFirst wSap w5WmsFirst w5Wms) wOut
    rfl rfl

/-! ### Error characterizations -/

theorem stepSap_error_iff (sap : List Row) (st : St) :
    (∃ m, stepSap sap st = Except.error m) ↔
      sap = [] ∨ ∃ f t, sap = f :: t ∧ sapMissing f ≠ [] := by
  unfold stepSap readFile
  cases sap with
  | nil => simp
  | cons f t =>
    rw [if_neg (by simp)]
    dsimp only
    by_cases hm : sapMissing f = []
    · rw [if_pos hm]
      constructor
      · rintro ⟨m, hc⟩
        cases hc
      · rintro (hc | ⟨f', t', heq, hm2⟩)
        · cases hc
        · cases heq
          exact absurd hm2 (by simp [hm])
    · rw [if_neg hm]
      constructor
      · intro _
        exact Or.inr ⟨f, t, rfl, hm⟩
      · intro _
        exact ⟨_, rfl⟩

theorem stepWms_error_iff (wms : List Row) (st : St) :
    (∃ m, stepWms wms st = Except.error m) ↔
      wms = [] ∨ ∃ f t, wms = f :: t ∧ wmsMissing f ≠ [] := by
  unfold stepWms readFile
  cases wms with
  | nil => simp
  | cons f t =>
    rw [if_neg (by simp)]
    dsimp only
    by_cases hm : wmsMissing f = []
    · rw [if_pos hm]
      constructor
      · rintro ⟨m, hc⟩
        cases hc
      · rintro (hc | ⟨f', t', heq, hm2⟩)
        · cases hc
        · cases heq
          exact absurd hm2 (by simp [hm])
    · rw [if_neg hm]
      constructor
      · intro _
        exact Or.inr ⟨f, t, rfl, hm⟩
      · intro _
        exact ⟨_, rfl⟩

theorem stepAdj_error_iff (adj : Option (List Row)) (st : St) :
    (∃ m, stepAdj adj st = Except.error m) ↔ adj = some [] := by
  unfold stepAdj readFile
  cases adj with
  | none => simp
  | some rows =>
    cases rows with
    | nil =>
      dsimp only
      rw [if_pos (by simp)]
      dsimp only
      constructor
      · intro _
        rfl
      · intro _
        exact ⟨_, rfl⟩
    | cons f t =>
      dsimp only
      rw [if_neg (by simp)]
      dsimp only
      constructor
      · rintro ⟨m, hc⟩
        by_cases hm : adjMissing f = []
        · rw [if_pos hm] at hc
          cases hc
        · rw [if_neg hm] at hc
          cases hc
      · intro hc
        cases hc

theorem gen_error_iff_run (sap wms : List Row) (adj : Option (List Row)) (m : String) :
    generateAnalysisFile sap wms adj = Except.error m ↔
      runPipeline sap wms adj = Except.error m := by
  unfold generateAnalysisFile
  cases h : runPipeline sap wms adj with
  | error m' => simp
  | ok o =>
    cases o with
    | none => constructor <;> (intro hc; cases hc)
    | some st => constructor <;> (intro hc; cases hc)

theorem runPipeline_error_iff (sap wms : List Row) (adj : Option (List Row)) :
    (∃ m, runPipeline sap wms adj = Except.error m) ↔
      (sap = [] ∨ (∃ f t, sap = f :: t ∧ sapMissing f ≠ []))
      ∨ ((∀ f t, sap = f :: t → sapMissing f = [])
          ∧ (wms = [] ∨ (∃ f t, wms = f :: t ∧ wmsMissing f ≠ [])))
      ∨ ((∀ f t, sap = f :: t → sapMissing f = [])
          ∧ (∀ f t, wms = f :: t → wmsMissing f = []) ∧ adj = some []) := by
  unfold runPipeline
  cases h1 : stepSap sap emptySt with
  | error m =>
    have hsap : sap = [] ∨ ∃ f t, sap = f :: t ∧ sapMissing f ≠ [] :=
      (stepSap_error_iff sap emptySt).mp ⟨m, h1⟩
    constructor
    · intro _
      exact Or.inl hsap
    · intro _
      exact ⟨m, rfl⟩
  | ok st1 =>
    have hsapok : ∀ f t, sap = f :: t → sapMissing f = [] := by
      intro f t heq
      by_contra hm
      have : ∃ m, stepSap sap emptySt = Except.error m :=
        (stepSap_error_iff sap emptySt).mpr (Or.inr ⟨f, t, heq, hm⟩)
      rcases this with ⟨m, hc⟩
      rw [h1] at hc
      cases hc
    have hsapne : sap ≠ [] := by
      intro hc
      have : ∃ m, stepSap sap emptySt = Except.error m :=
        (stepSap_error_iff sap emptySt).mpr (Or.inl hc)
      rcases this with ⟨m, hc2⟩
      rw [h1] at hc2
      cases hc2
    dsimp only
    cases h2 : stepWms wms st1 with
    | error m =>
      have hwms : wms = [] ∨ ∃ f t, wms = f :: t ∧ wmsMissing f ≠ [] :=
        (stepWms_error_iff wms st1).mp ⟨m, h2⟩
      constructor
      · intro _
        exact Or.inr (Or.inl ⟨hsapok, hwms⟩)
      · intro _
        exact ⟨m, rfl⟩
    | ok st2 =>
      have hwmsok : ∀ f t, wms = f :: t → wmsMissing f = [] := by
        intro f t heq
        by_contra hm
        have : ∃ m, stepWms wms st1 = Except.error m :=
          (stepWms_error_iff wms st1).mpr (Or.inr ⟨f, t, heq, hm⟩)
        rcases this with ⟨m, hc⟩
        rw [h2] at hc
        cases hc
      have hwmsne : wms ≠ [] := by
        intro hc
        have : ∃ m, stepWms wms st1 = Except.error m :=
          (stepWms_error_iff wms st1).mpr (Or.inl hc)
        rcases this with ⟨m, hc2⟩
        rw [h2] at hc2
        cases hc2
      dsimp only
      rw [stepAdj_error_iff adj st2]
      constructor
      · intro hadj
        exact Or.inr (Or.inr ⟨hsapok, hwmsok, hadj⟩)
      · rintro ((hc | ⟨f, t, heq, hm⟩) | ⟨-, hwms⟩ | ⟨-, -, hadj⟩)
        · exact absurd hc hsapne
        · exact absurd (hsapok f t heq) hm
        · rcases hwms with hc | ⟨f, t, heq, hm⟩
          · exact absurd hc hwmsne
          · exact absurd (hwmsok f t heq) hm
        · exact hadj

theorem stepSap_err_cols (f : Row) (t : List Row) (st : St) (hm : sapMissing f ≠ []) :
    stepSap (f :: t) st
      = Except.error ("[Paso 1: SAP] - Columnas requeridas no encontradas en archivo SAP: "
          ++ String.intercalate ", " (sapMissing f) ++ ".") := by
  unfold stepSap readFile
  rw [if_neg (by simp)]
  dsimp only
  rw [if_neg hm]

theorem stepWms_err_cols (f : Row) (t : List Row) (st : St) (hm : wmsMissing f ≠ []) :
    stepWms (f :: t) st
      = Except.error ("[Paso 2: WMS] - Columnas requeridas no encontradas en archivo WMS: "
          ++ String.intercalate ", " (wmsMissing f) ++ ".") := by
  unfold stepWms readFile
  rw [if_neg (by simp)]
  dsimp only
  rw [if_neg hm]

theorem sapok_cases (sap : List Row) :
    (sap = [] ∨ ∃ f t, sap = f :: t ∧ sapMissing f ≠ [])
    ∨ (∀ f t, sap = f :: t → sapMissing f = []) := by
  cases sap with
  | nil => exact Or.inl (Or.inl rfl)
  | cons f t =>
    by_cases hm : sapMissing f = []
    · refine Or.inr ?_
      intro f' t' heq
      cases heq
      exact hm
    · exact Or.inl (Or.inr ⟨f, t, rfl, hm⟩)

theorem wmsok_cases (wms : List Row) :
    (wms = [] ∨ ∃ f t, wms = f :: t ∧ wmsMissing f ≠ [])
    ∨ (∀ f t, wms = f :: t → wmsMissing f = []) := by
  cases wms with
  | nil => exact Or.inl (Or.inl rfl)
  | cons f t =>
    by_cases hm : wmsMissing f = []
    · refine Or.inr ?_
      intro f' t' heq
      cases heq
      exact hm
    · exact Or.inl (Or.inr ⟨f, t, rfl, hm⟩)

/-- C3: `generateAnalysisFile` throws a validation error exactly when an
input file parses to zero data rows or a required column (SKU, quantity,
area-SAP, centro for SAP; SKU, quantity, area, ubicación, area-SAP for
WMS) cannot be resolved from the first row; a thrown error excludes any
result, and for the missing-column failures the message lists exactly
the missing column labels. -/
theorem c3_validation (sap wms : List Row) (adj : Option (List Row)) :
    ((∃ msg, generateAnalysisFile sap wms adj = Except.error msg) ↔
      (sap = [] ∨ (∃ f t, sap = f :: t ∧ sapMissing f ≠ [])
       ∨ wms = [] ∨ (∃ f t, wms = f :: t ∧ wmsMissing f ≠ [])
       ∨ adj = some []))
    ∧ (∀ msg, generateAnalysisFile sap wms adj = Except.error msg →
        ∀ o, generateAnalysisFile sap wms adj ≠ Except.ok o)
    ∧ (∀ f t, sap = f :: t → sapMissing f ≠ [] →
        generateAnalysisFile sap wms adj
          = Except.error ("[Paso 1: SAP] - Columnas requeridas no encontradas en archivo SAP: "
              ++ String.intercalate ", " (sapMissing f) ++ "."))
    ∧ (∀ f1 t1 f2 t2, sap = f1 :: t1 → sapMissing f1 = [] → wms = f2 :: t2 →
        wmsMissing f2 ≠ [] →
        generateAnalysisFile sap wms adj
          = Except.error ("[Paso 2: WMS] - Columnas requeridas no encontradas en archivo WMS: "
              ++ String.intercalate ", " (wmsMissing f2) ++ ".")) := by
  have herr : ∀ m, generateAnalysisFile sap wms adj = Except.error m ↔
      runPipeline sap wms adj = Except.error m := fun m => gen_error_iff_run sap wms adj m
  refine ⟨?_, ?_, ?_, ?_⟩
  · constructor
    · rintro ⟨msg, hmsg⟩
      have hrun : ∃ m, runPipeline sap wms adj = Except.error m :=
        ⟨msg, (herr msg).mp hmsg⟩
      rcases (runPipeline_error_iff sap wms adj).mp hrun with
        (hc | hc) | ⟨-, (hc | hc)⟩ | ⟨-, -, hc⟩
      · exact Or.inl hc
      · exact Or.inr (Or.inl hc)
      · exact Or.inr (Or.inr (Or.inl hc))
      · exact Or.inr (Or.inr (Or.inr (Or.inl hc)))
      · exact Or.inr (Or.inr (Or.inr (Or.inr hc)))
    · intro hcond
      have hrun : ∃ m, runPipeline sap wms adj = Except.error m := by
        refine (runPipeline_error_iff sap wms adj).mpr ?_
        rcases hcond with hc | hc | hc | hc | hc
        · exact Or.inl (Or.inl hc)
        · exact Or.inl (Or.inr hc)
        · rcases sapok_cases sap with hbad | hok
          · exact Or.inl hbad
          · exact Or.inr (Or.inl ⟨hok, Or.inl hc⟩)
        · rcases sapok_cases sap with hbad | hok
          · exact Or.inl hbad
          · exact Or.inr (Or.inl ⟨hok, Or.inr hc⟩)
        · rcases sapok_cases sap with hbad | hok
          · exact Or.inl hbad
          · rcases wmsok_cases wms with hbad2 | hok2
            · exact Or.inr (Or.inl ⟨hok, hbad2⟩)
            · exact Or.inr (Or.inr ⟨hok, hok2, hc⟩)
      rcases hrun with ⟨m, hm⟩
      exact ⟨m, (herr m).mpr hm⟩
  · intro msg hmsg o
    rw [hmsg]
    intro hc
    cases hc
  · intro f t heq hm
    rw [(herr _).mpr]
    unfold runPipeline
    rw [heq, stepSap_err_cols f t emptySt hm]
  · intro f1 t1 f2 t2 heq1 hm1 heq2 hm2
    rw [(herr _).mpr]
    unfold runPipeline
    have h1 : stepSap sap emptySt
        = Except.ok (processSap (sapHeadersOf f1) sap emptySt) :=
      (stepSap_ok sap emptySt _).mpr ⟨f1, t1, heq1, hm1, rfl⟩
    rw [h1]
    dsimp only
    rw [heq2, stepWms_err_cols f2 t2 _ hm2]

def wBadRow : Row := [("Foo", "1")]

theorem c3_validation_witness :
    generateAnalysisFile [wBadRow] wWms none
      = Except.error ("[Paso 1: SAP] - Columnas requeridas no encontradas en archivo SAP: "
          ++ String.intercalate ", " (sapMissing wBadRow) ++ ".") :=
  (c3_validation [wBadRow] wWms none).2.2.1 wBadRow [] rfl (by decide)

/-! ### findHeader characterization -/

theorem findHeader_eq (row : Row) (synonyms : List String) :
    findHeader row synonyms =
      match (synonyms.map normalizeHeader).findSome?
          (fun syn => (row.map Prod.fst).find? (fun k => normalizeHeader k == syn)) with
      | some k => some k
      | none => (synonyms.map normalizeHeader).findSome?
          (fun syn => (row.map Prod.fst).find? (fun k => strIncludes (normalizeHeader k) syn)) :=
  rfl

theorem exactPass_none_iff (keys synonyms : List String) :
    ((synonyms.map normalizeHeader).findSome?
        (fun syn => keys.find? (fun k => normalizeHeader k == syn)) = none)
      ↔ ¬ ∃ k ∈ keys, ∃ syn ∈ synonyms, normalizeHeader k = normalizeHeader syn := by
  rw [List.findSome?_eq_none_iff]
  constructor
  · intro h
    rintro ⟨k, hk, syn, hsyn, heq⟩
    have h1 := h (normalizeHeader syn) (List.mem_map.mpr ⟨syn, hsyn, rfl⟩)
    rw [List.find?_eq_none] at h1
    exact h1 k hk (by simp [heq])
  · intro h syn' hsyn'
    rcases List.mem_map.mp hsyn' with ⟨syn, hsyn, rfl⟩
    rw [List.find?_eq_none]
    intro k hk hpred
    exact h ⟨k, hk, syn, hsyn, by simpa using hpred⟩

theorem exactPass_some (keys synonyms : List String) (k : String) :
    ((synonyms.map normalizeHeader).findSome?
        (fun syn => keys.find? (fun k => normalizeHeader k == syn)) = some k) →
      k ∈ keys ∧ ∃ syn ∈ synonyms, normalizeHeader k = normalizeHeader syn := by
  intro h
  rcases List.exists_of_findSome?_eq_some h with ⟨syn', hsyn', hf⟩
  rcases List.mem_map.mp hsyn' with ⟨syn, hsyn, rfl⟩
  refine ⟨List.mem_of_find?_eq_some hf, syn, hsyn, ?_⟩
  have := List.find?_some hf
  simpa using this

theorem sndPass_none_iff (keys synonyms : List String) :
    ((synonyms.map normalizeHeader).findSome?
        (fun syn => keys.find? (fun k => strIncludes (normalizeHeader k) syn)) = none)
      ↔ ¬ ∃ k ∈ keys, ∃ syn ∈ synonyms,
          strIncludes (normalizeHeader k) (normalizeHeader syn) = true := by
  rw [List.findSome?_eq_none_iff]
  constructor
  · intro h
    rintro ⟨k, hk, syn, hsyn, heq⟩
    have h1 := h (normalizeHeader syn) (List.mem_map.mpr ⟨syn, hsyn, rfl⟩)
    rw [List.find?_eq_none] at h1
    exact h1 k hk heq
  · intro h syn' hsyn'
    rcases List.mem_map.mp hsyn' with ⟨syn, hsyn, rfl⟩
    rw [List.find?_eq_none]
    intro k hk hpred
    exact h ⟨k, hk, syn, hsyn, hpred⟩

theorem sndPass_some (keys synonyms : List String) (k : String) :
    ((synonyms.map normalizeHeader).findSome?
        (fun syn => keys.find? (fun k => strIncludes (normalizeHeader k) syn)) = some k) →
      k ∈ keys ∧ ∃ syn ∈ synonyms,
        strIncludes (normalizeHeader k) (normalizeHeader syn) = true := by
  intro h
  rcases List.exists_of_findSome?_eq_some h with ⟨syn', hsyn', hf⟩
  rcases List.mem_map.mp hsyn' with ⟨syn, hsyn, rfl⟩
  refine ⟨List.mem_of_find?_eq_some hf, syn, hsyn, ?_⟩
  have h2 := List.find?_some hf
  simpa using h2

/-- C4: `findHeader` returns a key whose normalized form (lower-cased,
trimmed, inner whitespace collapsed) equals a normalized synonym
whenever one exists; only when no such exact match exists does it fall
back to a key whose normalized form contains a normalized synonym as a
substring (and it does return one whenever one exists); it returns
`none` exactly when neither kind of match exists. -/
theorem c4_findHeader (row : Row) (synonyms : List String) :
    ((∃ k ∈ row.map Prod.fst, ∃ syn ∈ synonyms,
        normalizeHeader k = normalizeHeader syn) →
      ∃ k, findHeader row synonyms = some k ∧ k ∈ row.map Prod.fst
        ∧ ∃ syn ∈ synonyms, normalizeHeader k = normalizeHeader syn)
    ∧ ((¬ ∃ k ∈ row.map Prod.fst, ∃ syn ∈ synonyms,
          normalizeHeader k = normalizeHeader syn) →
      (∀ k, findHeader row synonyms = some k →
        k ∈ row.map Prod.fst
        ∧ ∃ syn ∈ synonyms, strIncludes (normalizeHeader k) (normalizeHeader syn) = true)
      ∧ ((∃ k ∈ row.map Prod.fst, ∃ syn ∈ synonyms,
            strIncludes (normalizeHeader k) (normalizeHeader syn) = true) →
        ∃ k, findHeader row synonyms = some k))
    ∧ (findHeader row synonyms = none ↔
        (¬ ∃ k ∈ row.map Prod.fst, ∃ syn ∈ synonyms,
            normalizeHeader k = normalizeHeader syn)
        ∧ ¬ ∃ k ∈ row.map Prod.fst, ∃ syn ∈ synonyms,
            strIncludes (normalizeHeader k) (normalizeHeader syn) = true) := by
  rw [findHeader_eq]
  cases hex : (synonyms.map normalizeHeader).findSome?
      (fun syn => (row.map Prod.fst).find? (fun k => normalizeHeader k == syn)) with
  | some k =>
    have hk := exactPass_some _ _ _ hex
    have hnex : ¬ ((synonyms.map normalizeHeader).findSome?
        (fun syn => (row.map Prod.fst).find? (fun k => normalizeHeader k == syn)) = none) := by
      rw [hex]
      intro hc
      cases hc
    refine ⟨fun _ => ⟨k, rfl, hk.1, hk.2⟩, ?_, ?_⟩
    · intro hno
      exact absurd ((exactPass_none_iff _ _).mpr hno) (hex ▸ hnex)
    · constructor
      · intro hc
        cases hc
      · rintro ⟨hno, -⟩
        exact absurd ((exactPass_none_iff _ _).mpr hno) (hex ▸ hnex)
  | none =>
    have hno : ¬ ∃ k ∈ row.map Prod.fst, ∃ syn ∈ synonyms,
        normalizeHeader k = normalizeHeader syn := (exactPass_none_iff _ _).mp hex
    refine ⟨fun hc => absurd hc hno, fun _ => ⟨?_, ?_⟩, ?_⟩
    · intro k hk
      exact sndPass_some _ _ _ hk
    · intro hsub
      cases hsnd : (synonyms.map normalizeHeader).findSome?
          (fun syn => (row.map Prod.fst).find? (fun k => strIncludes (normalizeHeader k) syn)) with
      | some k => exact ⟨k, rfl⟩
      | none => exact absurd hsub ((sndPass_none_iff _ _).mp hsnd)
    · rw [sndPass_none_iff]
      constructor
      · intro h2
        exact ⟨hno, h2⟩
      · rintro ⟨-, h2⟩
        exact h2

def wC4Row : Row := [("Mi Cantidad X", "5"), ("SKU", "A")]

theorem c4_findHeader_witness :
    (∃ k, findHeader wC4Row SKU_SYNONYMS = some k ∧ k ∈ wC4Row.map Prod.fst
       ∧ ∃ syn ∈ SKU_SYNONYMS, normalizeHeader k = normalizeHeader syn)
    ∧ findHeader [("Foo", "1")] CLASE_MOV_SYNONYMS = none :=
  ⟨(c4_findHeader wC4Row SKU_SYNONYMS).1
      ⟨"SKU", by decide, "sku", by decide, by decide⟩,
   ((c4_findHeader [("Foo", "1")] CLASE_MOV_SYNONYMS).2.2).mpr (by decide)⟩

/-! ### Entry-level pass characterizations (for permutation reasoning) -/

/-- Does this WMS row create/update the entry of SKU `s`? -/
def wmsTouches (hs : WmsHeaders) (s : String) (r : Row) : Bool :=
  (wmsQtyVal hs r).isSome && (wmsSku hs r == s)

/-- Does this adjustments row create/update the entry of SKU `s`? -/
def adjTouches (hs : AdjHeaders) (s : String) (r : Row) : Bool :=
  (adjQtyVal hs r).isSome && (adjSku hs r == s)
    && decide (adjClaseMov hs r ∈ difInvMovs)

/-- Accumulated effect of the WMS pass on one entry. -/
def wmsAccum (hs : WmsHeaders) (rows : List Row) (s : String) (e : Entry) : Entry :=
  { e with wmsQty := e.wmsQty + wmsSum hs rows s,
           stockParaTraslado := e.stockParaTraslado + trasSum hs rows s }

/-- Accumulated effect of the adjustments pass on one entry. -/
def adjAccum (hs : AdjHeaders) (rows : List Row) (s : String) (e : Entry) : Entry :=
  { e with adjustment := e.adjustment + adjSum hs rows s }

theorem wmsAccum_nil (hs : WmsHeaders) (s : String) (e : Entry) :
    wmsAccum hs [] s e = e := by
  obtain ⟨a, b, c, d, f, g, h, i⟩ := e
  simp [wmsAccum, wmsSum, trasSum]

theorem adjAccum_nil (hs : AdjHeaders) (s : String) (e : Entry) :
    adjAccum hs [] s e = e := by
  obtain ⟨a, b, c, d, f, g, h, i⟩ := e
  simp [adjAccum, adjSum]

theorem wmsSum_cons (hs : WmsHeaders) (r : Row) (rows : List Row) (s : String) :
    wmsSum hs (r :: rows) s
      = (if wmsAreaSap hs r = "PT01" ∧ wmsSku hs r = s
         then (wmsQtyVal hs r).getD 0 else 0) + wmsSum hs rows s := by
  unfold wmsSum
  by_cases hc : wmsAreaSap hs r = "PT01" ∧ wmsSku hs r = s
  · rw [if_pos hc]
    cases hq : wmsQtyVal hs r with
    | none => simp [List.filterMap_cons, hc, hq]
    | some q => simp [List.filterMap_cons, hc, hq]
  · rw [if_neg hc]
    simp [List.filterMap_cons, hc]

theorem trasSum_cons (hs : WmsHeaders) (r : Row) (rows : List Row) (s : String) :
    trasSum hs (r :: rows) s = trasContrib hs s r + trasSum hs rows s := by
  unfold trasSum
  rw [List.map_cons, List.sum_cons]

theorem adjSum_cons (hs : AdjHeaders) (r : Row) (rows : List Row) (s : String) :
    adjSum hs (r :: rows) s = adjContrib hs s r + adjSum hs rows s := by
  unfold adjSum
  rw [List.map_cons, List.sum_cons]

theorem wmsSum_cons_noTouch (hs : WmsHeaders) (r : Row) (rows : List Row) (s : String)
    (ht : wmsTouches hs s r = false) :
    wmsSum hs (r :: rows) s = wmsSum hs rows s := by
  rw [wmsSum_cons]
  unfold wmsTouches at ht
  rw [Bool.and_eq_false_iff] at ht
  by_cases hc : wmsAreaSap hs r = "PT01" ∧ wmsSku hs r = s
  · rcases ht with ht | ht
    · rw [if_pos hc]
      cases hq : wmsQtyVal hs r with
      | none => simp [hq]
      | some q => simp [hq] at ht
    · exact absurd hc (by simp [beq_eq_false_iff_ne.mp ht])
  · rw [if_neg hc, zero_add]

theorem trasSum_cons_noTouch (hs : WmsHeaders) (r : Row) (rows : List Row) (s : String)
    (ht : wmsTouches hs s r = false) :
    trasSum hs (r :: rows) s = trasSum hs rows s := by
  rw [trasSum_cons]
  unfold wmsTouches at ht
  rw [Bool.and_eq_false_iff] at ht
  unfold trasContrib
  by_cases hc : jsStartsWith (wmsArea hs r) "AREA STAGE"
      ∧ jsStartsWith (wmsUbicacion hs r) "7" ∧ wmsSku hs r = s
  · rcases ht with ht | ht
    · rw [if_pos hc]
      cases hq : wmsQtyVal hs r with
      | none => simp [hq]
      | some q => simp [hq] at ht
    · exact absurd hc.2.2 (beq_eq_false_iff_ne.mp ht)
  · rw [if_neg hc, zero_add]

theorem adjSum_cons_noTouch (hs : AdjHeaders) (r : Row) (rows : List Row) (s : String)
    (ht : adjTouches hs s r = false) :
    adjSum hs (r :: rows) s = adjSum hs rows s := by
  rw [adjSum_cons]
  unfold adjTouches at ht
  rw [Bool.and_eq_false_iff, Bool.and_eq_false_iff] at ht
  unfold adjContrib
  by_cases hc : adjClaseMov hs r ∈ difInvMovs ∧ adjSku hs r = s
  · rcases ht with (ht | ht) | ht
    · rw [if_pos hc]
      cases hq : adjQtyVal hs r with
      | none => simp [hq]
      | some q => simp [hq] at ht
    · exact absurd hc.2 (beq_eq_false_iff_ne.mp ht)
    · rw [decide_eq_false_iff_not] at ht
      exact absurd hc.1 ht
  · rw [if_neg hc, zero_add]

theorem entry_ext (e1 e2 : Entry)
    (h1 : e1.sku = e2.sku) (h2 : e1.sapQty = e2.sapQty) (h3 : e1.wmsQty = e2.wmsQty)
    (h4 : e1.adjustment = e2.adjustment) (h5 : e1.stockParaTraslado = e2.stockParaTraslado)
    (h6 : e1.centro = e2.centro) (h7 : e1.nombreProd = e2.nombreProd)
    (h8 : e1.descAlmacen = e2.descAlmacen) : e1 = e2 := by
  cases e1
  cases e2
  simp_all

theorem wmsRowUpd_centro (hs : WmsHeaders) (r : Row) (q : ℚ) (e : Entry) :
    (wmsRowUpd hs r q e).centro = e.centro := by
  unfold wmsRowUpd
  dsimp only
  split <;> split <;> rfl

theorem wmsRowUpd_nombreProd (hs : WmsHeaders) (r : Row) (q : ℚ) (e : Entry) :
    (wmsRowUpd hs r q e).nombreProd = e.nombreProd := by
  unfold wmsRowUpd
  dsimp only
  split <;> split <;> rfl

theorem wmsRowUpd_descAlmacen (hs : WmsHeaders) (r : Row) (q : ℚ) (e : Entry) :
    (wmsRowUpd hs r q e).descAlmacen = e.descAlmacen := by
  unfold wmsRowUpd
  dsimp only
  split <;> split <;> rfl

theorem wmsAccum_cons_touch (hs : WmsHeaders) (r : Row) (rows : List Row) (s : String)
    (e : Entry) (ht : wmsTouches hs s r = true) :
    wmsAccum hs rows s (wmsRowUpd hs r ((wmsQtyVal hs r).getD 0) e)
      = wmsAccum hs (r :: rows) s e := by
  unfold wmsTouches at ht
  rw [Bool.and_eq_true] at ht
  have hsku : wmsSku hs r = s := by simpa using ht.2
  refine entry_ext _ _ ?_ ?_ ?_ ?_ ?_ ?_ ?_ ?_
  · show (wmsRowUpd hs r _ e).sku = e.sku
    exact wmsRowUpd_sku hs r _ e
  · show (wmsRowUpd hs r _ e).sapQty = e.sapQty
    exact wmsRowUpd_sapQty hs r _ e
  · show (wmsRowUpd hs r _ e).wmsQty + wmsSum hs rows s = e.wmsQty + wmsSum hs (r :: rows) s
    rw [wmsRowUpd_wmsQty, wmsSum_cons]
    have hcond : (if wmsAreaSap hs r = "PT01" ∧ wmsSku hs r = s
        then (wmsQtyVal hs r).getD 0 else 0)
        = (if wmsAreaSap hs r = "PT01" then (wmsQtyVal hs r).getD 0 else 0) := by
      by_cases hpt : wmsAreaSap hs r = "PT01"
      · rw [if_pos hpt, if_pos ⟨hpt, hsku⟩]
      · rw [if_neg hpt, if_neg (fun h => hpt h.1)]
    rw [hcond, add_assoc]
  · show (wmsRowUpd hs r _ e).adjustment = e.adjustment
    exact wmsRowUpd_adjustment hs r _ e
  · show (wmsRowUpd hs r _ e).stockParaTraslado + trasSum hs rows s
        = e.stockParaTraslado + trasSum hs (r :: rows) s
    rw [wmsRowUpd_traslado, trasSum_cons]
    have hcond : trasContrib hs s r
        = (if jsStartsWith (wmsArea hs r) "AREA STAGE"
              ∧ jsStartsWith (wmsUbicacion hs r) "7"
           then (wmsQtyVal hs r).getD 0 else 0) := by
      unfold trasContrib
      by_cases h7 : jsStartsWith (wmsArea hs r) "AREA STAGE"
          ∧ jsStartsWith (wmsUbicacion hs r) "7"
      · rw [if_pos h7, if_pos ⟨h7.1, h7.2, hsku⟩]
      · rw [if_neg h7, if_neg (fun h => h7 ⟨h.1, h.2.1⟩)]
    rw [hcond, add_assoc]
  · show (wmsRowUpd hs r _ e).centro = e.centro
    exact wmsRowUpd_centro hs r _ e
  · show (wmsRowUpd hs r _ e).nombreProd = e.nombreProd
    exact wmsRowUpd_nombreProd hs r _ e
  · show (wmsRowUpd hs r _ e).descAlmacen = e.descAlmacen
    exact wmsRowUpd_descAlmacen hs r _ e

theorem adjAccum_cons_touch (hs : AdjHeaders) (r : Row) (rows : List Row) (s : String)
    (e : Entry) (ht : adjTouches hs s r = true) :
    adjAccum hs rows s (adjRowUpd ((adjQtyVal hs r).getD 0) e)
      = adjAccum hs (r :: rows) s e := by
  unfold adjTouches at ht
  rw [Bool.and_eq_true, Bool.and_eq_true] at ht
  have hsku : adjSku hs r = s := by simpa using ht.1.2
  have hdif : adjClaseMov hs r ∈ difInvMovs := by simpa using ht.2
  refine entry_ext _ _ rfl rfl rfl ?_ rfl rfl rfl rfl
  show (adjRowUpd _ e).adjustment + adjSum hs rows s
      = e.adjustment + adjSum hs (r :: rows) s
  rw [adjRowUpd_adjustment, adjSum_cons]
  have hcond : adjContrib hs s r = (adjQtyVal hs r).getD 0 := by
    unfold adjContrib
    rw [if_pos ⟨hdif, hsku⟩]
  rw [hcond, add_assoc]

theorem entryOf_processWmsRow (hs : WmsHeaders) (st : St) (r : Row) (s : String)
    (hsne : s ≠ "") :
    entryOf (processWmsRow hs st r).dataMap s =
      if wmsTouches hs s r
      then some (wmsRowUpd hs r ((wmsQtyVal hs r).getD 0)
        ((entryOf st.dataMap s).getD (newEntry s)))
      else entryOf st.dataMap s := by
  unfold processWmsRow wmsTouches
  cases hq : wmsQtyVal hs r with
  | none => simp
  | some qty =>
    dsimp only
    by_cases hsku0 : wmsSku hs r = ""
    · rw [if_pos hsku0]
      have hb : (wmsSku hs r == s) = false := by
        rw [hsku0]
        exact beq_eq_false_iff_ne.mpr (Ne.symm hsne)
      rw [hb]
      simp
    · rw [if_neg hsku0]
      dsimp only
      rw [entryOf_update_ensure _ _ _ _ (wmsRowUpd_sku hs r qty)]
      by_cases hss : s = wmsSku hs r
      · have hb : (wmsSku hs r == s) = true := beq_iff_eq.mpr hss.symm
        rw [if_pos hss, hb, hss]
        simp
      · have hb : (wmsSku hs r == s) = false := beq_eq_false_iff_ne.mpr (fun h => hss h.symm)
        rw [if_neg hss, hb]
        simp

theorem entryOf_processAdjRow (hs : AdjHeaders) (stc : List (String × String))
    (st : St) (r : Row) (s : String) (hsne : s ≠ "") :
    entryOf (processAdjRow hs stc st r).dataMap s =
      if adjTouches hs s r
      then some (adjRowUpd ((adjQtyVal hs r).getD 0)
        ((entryOf st.dataMap s).getD (newEntry s)))
      else entryOf st.dataMap s := by
  unfold processAdjRow adjTouches
  cases hq : adjQtyVal hs r with
  | none => simp
  | some qty =>
    dsimp only
    by_cases hempty : adjSku hs r = "" ∨ adjClaseMov hs r = ""
    · rw [if_pos hempty]
      rcases hempty with h0 | h0
      · have hb : (adjSku hs r == s) = false := by
          rw [h0]
          exact beq_eq_false_iff_ne.mpr (Ne.symm hsne)
        rw [hb]
        simp
      · have hb : decide (adjClaseMov hs r ∈ difInvMovs) = false := by
          rw [decide_eq_false_iff_not, h0]
          exact empty_not_difInv
        rw [hb]
        simp
    · rw [if_neg hempty]
      by_cases hdif : adjClaseMov hs r ∈ difInvMovs
      · rw [if_pos hdif]
        dsimp only
        rw [entryOf_update_ensure _ _ _ _ (adjRowUpd_sku qty)]
        have hd : decide (adjClaseMov hs r ∈ difInvMovs) = true := decide_eq_true hdif
        by_cases hss : s = adjSku hs r
        · have hb : (adjSku hs r == s) = true := beq_iff_eq.mpr hss.symm
          rw [if_pos hss, hb, hd, hss]
          simp
        · have hb : (adjSku hs r == s) = false :=
            beq_eq_false_iff_ne.mpr (fun h => hss h.symm)
          rw [if_neg hss, hb]
          simp
      · have hd : decide (adjClaseMov hs r ∈ difInvMovs) = false :=
          decide_eq_false hdif
        rw [hd]
        have hmap : ∀ st2 : St, st2.dataMap = st.dataMap →
            entryOf st2.dataMap s = entryOf st.dataMap s := by
          intro st2 h2
          rw [h2]
        by_cases h42 : adjClaseMov hs r = "Z42"
        · rw [if_neg hdif, if_pos h42]
          simp
        · by_cases h44 : adjClaseMov hs r = "Z44"
          · rw [if_neg hdif, if_neg h42, if_pos h44]
            simp
          · rw [if_neg hdif, if_neg h42, if_neg h44]
            simp

theorem entryOf_processWms_pass (hs : WmsHeaders) (s : String) (hsne : s ≠ "") :
    ∀ (rows : List Row) (st : St),
      entryOf (processWms hs rows st).dataMap s =
        match entryOf st.dataMap s with
        | some e => some (wmsAccum hs rows s e)
        | none => if rows.any (wmsTouches hs s)
                  then some (wmsAccum hs rows s (newEntry s)) else none := by
  intro rows
  induction rows with
  | nil =>
    intro st
    cases h : entryOf st.dataMap s with
    | none =>
      simp [processWms]
      exact h
    | some e =>
      simp [processWms, wmsAccum_nil]
      exact h
  | cons r rows ih =>
    intro st
    show entryOf (processWms hs rows (processWmsRow hs st r)).dataMap s = _
    rw [ih (processWmsRow hs st r), entryOf_processWmsRow hs st r s hsne]
    cases ht : wmsTouches hs s r with
    | false =>
      rw [if_neg (by simp [ht])]
      have h1 : wmsSum hs (r :: rows) s = wmsSum hs rows s :=
        wmsSum_cons_noTouch _ _ _ _ ht
      have h2 : trasSum hs (r :: rows) s = trasSum hs rows s :=
        trasSum_cons_noTouch _ _ _ _ ht
      have hany : (r :: rows).any (wmsTouches hs s) = rows.any (wmsTouches hs s) := by
        rw [List.any_cons, ht, Bool.false_or]
      cases h : entryOf st.dataMap s with
      | some e => simp [wmsAccum, h1, h2]
      | none =>
        rw [hany]
        cases hany2 : rows.any (wmsTouches hs s) with
        | true => simp [wmsAccum, h1, h2]
        | false => simp
    | true =>
      rw [if_pos (by simp [ht])]
      have hany : (r :: rows).any (wmsTouches hs s) = true := by
        rw [List.any_cons, ht, Bool.true_or]
      cases h : entryOf st.dataMap s with
      | some e =>
        show some (wmsAccum hs rows s (wmsRowUpd hs r _ e)) = _
        rw [wmsAccum_cons_touch hs r rows s e ht]
      | none =>
        rw [hany]
        show some (wmsAccum hs rows s (wmsRowUpd hs r _ (newEntry s))) = _
        rw [if_pos rfl, wmsAccum_cons_touch hs r rows s (newEntry s) ht]

theorem entryOf_processAdj_pass (hs : AdjHeaders) (stc : List (String × String))
    (s : String) (hsne : s ≠ "") :
    ∀ (rows : List Row) (st : St),
      entryOf (processAdj hs stc rows st).dataMap s =
        match entryOf st.dataMap s with
        | some e => some (adjAccum hs rows s e)
        | none => if rows.any (adjTouches hs s)
                  then some (adjAccum hs rows s (newEntry s)) else none := by
  intro rows
  induction rows with
  | nil =>
    intro st
    cases h : entryOf st.dataMap s with
    | none =>
      simp [processAdj]
      exact h
    | some e =>
      simp [processAdj, adjAccum_nil]
      exact h
  | cons r rows ih =>
    intro st
    show entryOf (processAdj hs stc rows (processAdjRow hs stc st r)).dataMap s = _
    rw [ih (processAdjRow hs stc st r), entryOf_processAdjRow hs stc st r s hsne]
    cases ht : adjTouches hs s r with
    | false =>
      rw [if_neg (by simp [ht])]
      have h1 : adjSum hs (r :: rows) s = adjSum hs rows s :=
        adjSum_cons_noTouch _ _ _ _ ht
      have hany : (r :: rows).any (adjTouches hs s) = rows.any (adjTouches hs s) := by
        rw [List.any_cons, ht, Bool.false_or]
      cases h : entryOf st.dataMap s with
      | some e => simp [adjAccum, h1]
      | none =>
        rw [hany]
        cases hany2 : rows.any (adjTouches hs s) with
        | true => simp [adjAccum, h1]
        | false => simp
    | true =>
      rw [if_pos (by simp [ht])]
      have hany : (r :: rows).any (adjTouches hs s) = true := by
        rw [List.any_cons, ht, Bool.true_or]
      cases h : entryOf st.dataMap s with
      | some e =>
        show some (adjAccum hs rows s (adjRowUpd _ e)) = _
        rw [adjAccum_cons_touch hs r rows s e ht]
      | none =>
        rw [hany]
        show some (adjAccum hs rows s (adjRowUpd _ (newEntry s))) = _
        rw [if_pos rfl, adjAccum_cons_touch hs r rows s (newEntry s) ht]

/-! ### Permutation invariance helpers -/

theorem perm_any_eq {α : Type} (p : α → Bool) {l1 l2 : List α} (h : l1.Perm l2) :
    l1.any p = l2.any p := by
  cases h2 : l2.any p with
  | true =>
    rcases List.any_eq_true.mp h2 with ⟨x, hx, hp⟩
    exact List.any_eq_true.mpr ⟨x, h.mem_iff.mpr hx, hp⟩
  | false =>
    cases h1 : l1.any p with
    | false => rfl
    | true =>
      rcases List.any_eq_true.mp h1 with ⟨x, hx, hp⟩
      have hc := List.any_eq_true.mpr ⟨x, h.mem_iff.mp hx, hp⟩
      rw [h2] at hc
      cases hc

theorem map_sum_perm {α : Type} (f : α → ℚ) {l1 l2 : List α} (h : l1.Perm l2) :
    (l1.map f).sum = (l2.map f).sum :=
  (h.map f).sum_eq

theorem sapSum_perm (hs : SapHeaders) {l1 l2 : List Row} (h : l1.Perm l2) (s : String) :
    sapSum hs l1 s = sapSum hs l2 s := by
  rw [sapSum_eq_map, sapSum_eq_map]
  exact map_sum_perm _ h

theorem wmsSum_perm (hs : WmsHeaders) {l1 l2 : List Row} (h : l1.Perm l2) (s : String) :
    wmsSum hs l1 s = wmsSum hs l2 s := by
  rw [wmsSum_eq_map, wmsSum_eq_map]
  exact map_sum_perm _ h

theorem trasSum_perm (hs : WmsHeaders) {l1 l2 : List Row} (h : l1.Perm l2) (s : String) :
    trasSum hs l1 s = trasSum hs l2 s :=
  map_sum_perm _ h

theorem adjSum_perm (hs : AdjHeaders) {l1 l2 : List Row} (h : l1.Perm l2) (s : String) :
    adjSum hs l1 s = adjSum hs l2 s :=
  map_sum_perm _ h

theorem mermaSum_perm (hs : AdjHeaders) (stc : List (String × String))
    {l1 l2 : List Row} (h : l1.Perm l2) (c : String) :
    mermaSum hs stc l1 c = mermaSum hs stc l2 c :=
  map_sum_perm _ h

theorem vencSum_perm (hs : AdjHeaders) (stc : List (String × String))
    {l1 l2 : List Row} (h : l1.Perm l2) (c : String) :
    vencSum hs stc l1 c = vencSum hs stc l2 c :=
  map_sum_perm _ h

theorem entryOf_goodKeys_empty (m : DataMap) (hgk : ∀ e ∈ m, e.sku ≠ "") :
    entryOf m "" = none := by
  unfold entryOf
  rw [List.find?_eq_none]
  intro e he
  simpa using hgk e he

theorem pipelineSt_merma (f1 : Row) (sap : List Row) (f2 : Row) (wms : List Row) :
    (pipelineSt f1 sap f2 wms).merma = [] := by
  unfold pipelineSt
  rw [merma_processWms, merma_processSap]
  rfl

theorem pipelineSt_venc (f1 : Row) (sap : List Row) (f2 : Row) (wms : List Row) :
    (pipelineSt f1 sap f2 wms).venc = [] := by
  unfold pipelineSt
  rw [venc_processWms, venc_processSap]
  rfl

theorem sumOf_summaryByCentro (fr : List ReportRow) (c : String) :
    sumOf (summaryByCentro fr) c
      = (fr.map (fun rr =>
          if c = (if rr.centro = "" then "INDEFINIDO" else rr.centro)
          then rr.ajuste else 0)).sum := by
  unfold summaryByCentro
  have h := foldl_add_of_step
    (fun m rr => addToCentro m (if rr.centro = "" then "INDEFINIDO" else rr.centro) rr.ajuste)
    (fun m => sumOf m c)
    (fun rr => if c = (if rr.centro = "" then "INDEFINIDO" else rr.centro)
               then rr.ajuste else 0)
    (fun m rr => sumOf_addToCentro m _ _ c) fr []
  simpa [sumOf] using h

theorem summary_sum_perm {fr1 fr2 : List ReportRow} (h : fr1.Perm fr2) (c : String) :
    sumOf (summaryByCentro fr1) c = sumOf (summaryByCentro fr2) c := by
  rw [sumOf_summaryByCentro, sumOf_summaryByCentro]
  exact map_sum_perm _ h

theorem buildReport_perm {st1 st2 : St} (hdm : st1.dataMap.Perm st2.dataMap)
    (hstc : st1.skuToCentro = st2.skuToCentro) :
    (buildReport st1).Perm (buildReport st2) := by
  unfold buildReport
  rw [hstc]
  exact (hdm.map (mkReportRow st2.skuToCentro)).filter keepRow

theorem final_state_fields_at (sap wms : List Row) (adj : Option (List Row)) (st : St)
    (f1 : Row) (t1 : List Row) (f2 : Row) (t2 : List Row)
    (hsap : sap = f1 :: t1) (hwms : wms = f2 :: t2)
    (h : runPipeline sap wms adj = Except.ok (some st)) :
    ∀ s, s ≠ "" →
      sapQtyOf st.dataMap s = sapSum (sapHeadersOf f1) sap s
      ∧ wmsQtyOf st.dataMap s = wmsSum (wmsHeadersOf f2) wms s
      ∧ trasladoOf st.dataMap s = trasSum (wmsHeadersOf f2) wms s := by
  obtain ⟨-, -, f1x, t1x, f2x, t2x, hsapx, hwmsx, -, -, hfields⟩ :=
    final_state_fields sap wms adj st h
  rw [hsap] at hsapx
  rw [hwms] at hwmsx
  cases hsapx
  cases hwmsx
  exact hfields

theorem adjustmentOf_pipelineSt (f1 : Row) (sap : List Row) (f2 : Row) (wms : List Row)
    (s : String) :
    adjustmentOf (pipelineSt f1 sap f2 wms).dataMap s = 0 := by
  unfold pipelineSt
  rw [adjustmentOf_processWms, adjustmentOf_processSap]
  simp [adjustmentOf, entryOf, emptySt]

theorem final_adjustmentOf (sap wms : List Row) (adj : Option (List Row)) (st : St)
    (h : runPipeline sap wms adj = Except.ok (some st)) :
    (adj = none → ∀ s, adjustmentOf st.dataMap s = 0)
    ∧ (∀ f3 t3, adj = some (f3 :: t3) → ∀ s, s ≠ "" →
        adjustmentOf st.dataMap s = adjSum (adjHeadersOf f3) (f3 :: t3) s) := by
  rcases runPipeline_ok_cases sap wms adj st h with
    ⟨f1, t1, f2, t2, hsap, hwms, -, -, hcase⟩
  constructor
  · intro hnone s
    rcases hcase with ⟨-, hst⟩ | ⟨f3, t3, hadj, -, -⟩
    · subst hst
      exact adjustmentOf_pipelineSt f1 sap f2 wms s
    · rw [hnone] at hadj
      cases hadj
  · intro f3 t3 hadj s hsne
    rcases hcase with ⟨hnone, -⟩ | ⟨f3x, t3x, hadjx, -, hst⟩
    · rw [hnone] at hadj
      cases hadj
    · rw [hadj] at hadjx
      rw [Option.some.injEq] at hadjx
      cases hadjx
      subst hst
      rw [adjustmentOf_processAdj _ _ _ _ _ hsne, adjustmentOf_pipelineSt, zero_add]

theorem final_skuToCentro (sap wms : List Row) (adj : Option (List Row)) (st : St)
    (f1 : Row) (t1 : List Row) (hsap : sap = f1 :: t1)
    (h : runPipeline sap wms adj = Except.ok (some st)) :
    st.skuToCentro = (processSap (sapHeadersOf f1) sap emptySt).skuToCentro := by
  rcases runPipeline_ok_cases sap wms adj st h with
    ⟨f1x, t1x, f2, t2, hsapx, hwms, -, -, hcase⟩
  rw [hsap] at hsapx
  cases hsapx
  rcases hcase with ⟨-, hst⟩ | ⟨f3, t3, -, -, hst⟩
  · subst hst
    exact pipelineSt_skuToCentro f1 sap f2 wms
  · subst hst
    rw [skuToCentro_processAdj]
    exact pipelineSt_skuToCentro f1 sap f2 wms

theorem final_mermaOf (sap wms : List Row) (adj : Option (List Row)) (st : St)
    (h : runPipeline sap wms adj = Except.ok (some st)) :
    (adj = none → st.merma = [])
    ∧ (∀ f1 t1 f3 t3, sap = f1 :: t1 → adj = some (f3 :: t3) → ∀ c,
        sumOf st.merma c
          = mermaSum (adjHeadersOf f3)
              (processSap (sapHeadersOf f1) sap emptySt).skuToCentro (f3 :: t3) c) := by
  rcases runPipeline_ok_cases sap wms adj st h with
    ⟨f1x, t1x, f2, t2, hsapx, hwms, -, -, hcase⟩
  constructor
  · intro hnone
    rcases hcase with ⟨-, hst⟩ | ⟨f3, t3, hadj, -, -⟩
    · subst hst
      exact pipelineSt_merma f1x sap f2 wms
    · rw [hnone] at hadj
      cases hadj
  · intro f1 t1 f3 t3 hsap hadj c
    rw [hsap] at hsapx
    cases hsapx
    rcases hcase with ⟨hnone, -⟩ | ⟨f3x, t3x, hadjx, -, hst⟩
    · rw [hnone] at hadj
      cases hadj
    · rw [hadj] at hadjx
      rw [Option.some.injEq] at hadjx
      cases hadjx
      subst hst
      rw [mermaOf_processAdj]
      rw [pipelineSt_merma, pipelineSt_skuToCentro]
      show (0 : ℚ) + _ = _
      rw [zero_add]

theorem final_vencOf (sap wms : List Row) (adj : Option (List Row)) (st : St)
    (h : runPipeline sap wms adj = Except.ok (some st)) :
    (adj = none → st.venc = [])
    ∧ (∀ f1 t1 f3 t3, sap = f1 :: t1 → adj = some (f3 :: t3) → ∀ c,
        sumOf st.venc c
          = vencSum (adjHeadersOf f3)
              (processSap (sapHeadersOf f1) sap emptySt).skuToCentro (f3 :: t3) c) := by
  rcases runPipeline_ok_cases sap wms adj st h with
    ⟨f1x, t1x, f2, t2, hsapx, hwms, -, -, hcase⟩
  constructor
  · intro hnone
    rcases hcase with ⟨-, hst⟩ | ⟨f3, t3, hadj, -, -⟩
    · subst hst
      exact pipelineSt_venc f1x sap f2 wms
    · rw [hnone] at hadj
      cases hadj
  · intro f1 t1 f3 t3 hsap hadj c
    rw [hsap] at hsapx
    cases hsapx
    rcases hcase with ⟨hnone, -⟩ | ⟨f3x, t3x, hadjx, -, hst⟩
    · rw [hnone] at hadj
      cases hadj
    · rw [hadj] at hadjx
      rw [Option.some.injEq] at hadjx
      cases hadjx
      subst hst
      rw [vencOf_processAdj]
      rw [pipelineSt_venc, pipelineSt_skuToCentro]
      show (0 : ℚ) + _ = _
      rw [zero_add]

theorem entryOf_processWms_perm (hs : WmsHeaders) {wms1 wms2 : List Row}
    (hp : wms1.Perm wms2) (st : St) (s : String) (hsne : s ≠ "") :
    entryOf (processWms hs wms1 st).dataMap s
      = entryOf (processWms hs wms2 st).dataMap s := by
  rw [entryOf_processWms_pass hs s hsne, entryOf_processWms_pass hs s hsne]
  have h1 : wmsSum hs wms1 s = wmsSum hs wms2 s := wmsSum_perm hs hp s
  have h2 : trasSum hs wms1 s = trasSum hs wms2 s := trasSum_perm hs hp s
  have h3 : wms1.any (wmsTouches hs s) = wms2.any (wmsTouches hs s) :=
    perm_any_eq _ hp
  have ha : ∀ e, wmsAccum hs wms1 s e = wmsAccum hs wms2 s e := by
    intro e
    unfold wmsAccum
    rw [h1, h2]
  cases entryOf st.dataMap s with
  | some e =>
    show some _ = some _
    rw [ha]
  | none =>
    rw [h3]
    cases wms2.any (wmsTouches hs s) with
    | true =>
      show some _ = some _
      rw [ha]
    | false => rfl

theorem entryOf_processAdj_perm (hs : AdjHeaders) (stc1 stc2 : List (String × String))
    {l1 l2 : List Row} (hp : l1.Perm l2) {stA stB : St} (s : String) (hsne : s ≠ "")
    (hAB : entryOf stA.dataMap s = entryOf stB.dataMap s) :
    entryOf (processAdj hs stc1 l1 stA).dataMap s
      = entryOf (processAdj hs stc2 l2 stB).dataMap s := by
  rw [entryOf_processAdj_pass hs stc1 s hsne, entryOf_processAdj_pass hs stc2 s hsne, hAB]
  have h1 : adjSum hs l1 s = adjSum hs l2 s := adjSum_perm hs hp s
  have h3 : l1.any (adjTouches hs s) = l2.any (adjTouches hs s) := perm_any_eq _ hp
  have ha : ∀ e, adjAccum hs l1 s e = adjAccum hs l2 s e := by
    intro e
    unfold adjAccum
    rw [h1]
  cases entryOf stB.dataMap s with
  | some e =>
    show some _ = some _
    rw [ha]
  | none =>
    rw [h3]
    cases l2.any (adjTouches hs s) with
    | true =>
      show some _ = some _
      rw [ha]
    | false => rfl

/-- Permutation of the optional adjustments file, fixing the first data
row (whose keys determine header resolution). -/
def optRowsPerm : Option (List Row) → Option (List Row) → Prop
  | none, none => True
  | some l1, some l2 => l1.Perm l2 ∧ l1.head? = l2.head?
  | _, _ => False

/-- C6 (amended): when both runs succeed and each permutation preserves
the first data row (which fixes header resolution), every per-SKU
accumulated sum is unchanged under permutations of the SAP, WMS and
adjustments rows; the per-centro sums (merma, vencimiento, and the
per-centro diferencia/adjustment totals) are unchanged under
permutations of the WMS and adjustments rows, i.e. whenever the SAP file
itself is unchanged.  (Permuting SAP rows can move the per-centro sums,
because the SKU-to-centro assignment takes the first centro seen; see
the counterexample.) -/
theorem c6_amended (sap sap' wms wms' : List Row) (adj adj' : Option (List Row))
    (st st' : St)
    (hrun : runPipeline sap wms adj = Except.ok (some st))
    (hrun' : runPipeline sap' wms' adj' = Except.ok (some st'))
    (hsapP : sap'.Perm sap) (hsapH : sap'.head? = sap.head?)
    (hwmsP : wms'.Perm wms) (hwmsH : wms'.head? = wms.head?)
    (hadjP : optRowsPerm adj' adj) :
    (∀ s, sapQtyOf st'.dataMap s = sapQtyOf st.dataMap s
       ∧ wmsQtyOf st'.dataMap s = wmsQtyOf st.dataMap s
       ∧ adjustmentOf st'.dataMap s = adjustmentOf st.dataMap s
       ∧ trasladoOf st'.dataMap s = trasladoOf st.dataMap s)
    ∧ (sap' = sap →
        ∀ c, sumOf st'.merma c = sumOf st.merma c
          ∧ sumOf st'.venc c = sumOf st.venc c
          ∧ sumOf (summaryByCentro (buildReport st')) c
              = sumOf (summaryByCentro (buildReport st)) c) := by
  obtain ⟨hnd, hgk, -⟩ := final_state_fields sap wms adj st hrun
  obtain ⟨hnd', hgk', -⟩ := final_state_fields sap' wms' adj' st' hrun'
  rcases runPipeline_ok_cases sap wms adj st hrun with
    ⟨f1, t1, f2, t2, hsap, hwms, hm1, hm2, hcase⟩
  rcases runPipeline_ok_cases sap' wms' adj' st' hrun' with
    ⟨g1, u1, g2, u2, hsap', hwms', hm1', hm2', hcase'⟩
  have hg1 : g1 = f1 := by
    have h := hsapH
    rw [hsap, hsap'] at h
    simpa using h
  have hg2 : g2 = f2 := by
    have h := hwmsH
    rw [hwms, hwms'] at h
    simpa using h
  rw [hg1] at hsap' hcase'
  rw [hg2] at hwms' hcase'
  have hBIG :
      (st = pipelineSt f1 sap f2 wms ∧ st' = pipelineSt f1 sap' f2 wms'
        ∧ adj = none ∧ adj' = none)
      ∨ (∃ f3 t3 u3, adj = some (f3 :: t3) ∧ adj' = some (f3 :: u3)
          ∧ (f3 :: u3).Perm (f3 :: t3)
          ∧ st = processAdj (adjHeadersOf f3) (pipelineSt f1 sap f2 wms).skuToCentro
              (f3 :: t3) (pipelineSt f1 sap f2 wms)
          ∧ st' = processAdj (adjHeadersOf f3) (pipelineSt f1 sap' f2 wms').skuToCentro
              (f3 :: u3) (pipelineSt f1 sap' f2 wms')) := by
    rcases hcase with ⟨hnA, hstA⟩ | ⟨f3, t3, hadj3, hm3, hstA⟩
    · rcases hcase' with ⟨hnB, hstB⟩ | ⟨g3, u3, hadj3', -, -⟩
      · exact Or.inl ⟨hstA, hstB, hnA, hnB⟩
      · rw [hnA, hadj3'] at hadjP
        exact hadjP.elim
    · rcases hcase' with ⟨hnB, -⟩ | ⟨g3, u3, hadj3', hm3', hstB⟩
      · rw [hnB, hadj3] at hadjP
        exact hadjP.elim
      · rw [hadj3, hadj3'] at hadjP
        have hg3 : g3 = f3 := by simpa using hadjP.2
        rw [hg3] at hadj3' hadjP hstB
        exact Or.inr ⟨f3, t3, u3, hadj3, hadj3', hadjP.1, hstA, hstB⟩
  have hfieldsA := final_state_fields_at sap wms adj st f1 t1 f2 t2 hsap hwms hrun
  have hfieldsB := final_state_fields_at sap' wms' adj' st' f1 u1 f2 u2 hsap' hwms' hrun'
  have hadjQA := final_adjustmentOf sap wms adj st hrun
  have hadjQB := final_adjustmentOf sap' wms' adj' st' hrun'
  constructor
  · intro s
    by_cases hse : s = ""
    · subst hse
      have hA : entryOf st.dataMap "" = none := entryOf_goodKeys_empty _ hgk
      have hB : entryOf st'.dataMap "" = none := entryOf_goodKeys_empty _ hgk'
      refine ⟨?_, ?_, ?_, ?_⟩ <;>
        simp [sapQtyOf, wmsQtyOf, adjustmentOf, trasladoOf, hA, hB]
    · obtain ⟨ha1, ha2, ha3⟩ := hfieldsA s hse
      obtain ⟨hb1, hb2, hb3⟩ := hfieldsB s hse
      refine ⟨?_, ?_, ?_, ?_⟩
      · rw [ha1, hb1, sapSum_perm (sapHeadersOf f1) hsapP s]
      · rw [ha2, hb2, wmsSum_perm (wmsHeadersOf f2) hwmsP s]
      · rcases hBIG with ⟨-, -, hnA, hnB⟩ | ⟨f3, t3, u3, hadj3, hadj3', hperm, -, -⟩
        · rw [hadjQA.1 hnA s, hadjQB.1 hnB s]
        · rw [hadjQA.2 f3 t3 hadj3 s hse, hadjQB.2 f3 u3 hadj3' s hse,
            adjSum_perm (adjHeadersOf f3) hperm s]
      · rw [ha3, hb3, trasSum_perm (wmsHeadersOf f2) hwmsP s]
  · intro hsapEq
    rw [hsapEq] at hrun' hsap' hBIG
    intro c
    have hmermaA := final_mermaOf sap wms adj st hrun
    have hmermaB := final_mermaOf sap wms' adj' st' hrun'
    have hvencA := final_vencOf sap wms adj st hrun
    have hvencB := final_vencOf sap wms' adj' st' hrun'
    have hstc : st'.skuToCentro = st.skuToCentro := by
      rw [final_skuToCentro sap wms adj st f1 t1 hsap hrun,
        final_skuToCentro sap wms' adj' st' f1 u1 hsap' hrun']
    have hpt : ∀ s, entryOf st'.dataMap s = entryOf st.dataMap s := by
      intro s
      by_cases hse : s = ""
      · subst hse
        rw [entryOf_goodKeys_empty _ hgk', entryOf_goodKeys_empty _ hgk]
      · rcases hBIG with ⟨hstA, hstB, -, -⟩ | ⟨f3, t3, u3, -, -, hperm, hstA, hstB⟩
        · rw [hstA, hstB]
          unfold pipelineSt
          exact entryOf_processWms_perm (wmsHeadersOf f2) hwmsP _ s hse
        · rw [hstA, hstB]
          refine entryOf_processAdj_perm (adjHeadersOf f3) _ _ hperm s hse ?_
          unfold pipelineSt
          exact entryOf_processWms_perm (wmsHeadersOf f2) hwmsP _ s hse
    have hdm : st'.dataMap.Perm st.dataMap := perm_of_entryOf_eq _ _ hnd' hnd hpt
    have hbr : (buildReport st').Perm (buildReport st) := buildReport_perm hdm hstc
    refine ⟨?_, ?_, summary_sum_perm hbr c⟩
    · rcases hBIG with ⟨-, -, hnA, hnB⟩ | ⟨f3, t3, u3, hadj3, hadj3', hperm, -, -⟩
      · rw [hmermaA.1 hnA, hmermaB.1 hnB]
      · rw [hmermaA.2 f1 t1 f3 t3 hsap hadj3 c,
          hmermaB.2 f1 u1 f3 u3 hsap' hadj3' c,
          mermaSum_perm (adjHeadersOf f3) _ hperm c]
    · rcases hBIG with ⟨-, -, hnA, hnB⟩ | ⟨f3, t3, u3, hadj3, hadj3', hperm, -, -⟩
      · rw [hvencA.1 hnA, hvencB.1 hnB]
      · rw [hvencA.2 f1 t1 f3 t3 hsap hadj3 c,
          hvencB.2 f1 u1 f3 u3 hsap' hadj3' c,
          vencSum_perm (adjHeadersOf f3) _ hperm c]

def c6r1 : Row := [("Material", "A"), ("Cantidad", "1"), ("Almacén", "PT01"), ("Centro", "C1")]

def c6r2 : Row := [("Material", "A"), ("Cantidad", "2"), ("Almacén", "PT01"), ("Centro", "C2")]

def c6Adj : List Row := [[("Material", "A"), ("Cantidad", "5"), ("Clase de Movimiento", "Z42")]]

def c6RowA : ReportRow :=
  { centro := "C1", descAlmacen := "PT01", sku := "A", nombreProd := "",
    stockSAP := 3, stockWMS := 3, diferencia := 0, ajuste := 0,
    stockParaTraslado := 0 }

def c6RowB : ReportRow :=
  { centro := "C2", descAlmacen := "PT01", sku := "A", nombreProd := "",
    stockSAP := 3, stockWMS := 3, diferencia := 0, ajuste := 0,
    stockParaTraslado := 0 }

def c6OutA : Output :=
  { analysisReport := [c6RowA],
    mermaReport := [("C1", 5)], vencimientoReport := [],
    workbookMermaSheet := some [("C1", 5)], workbookVencSheet := none,
    summaryChartData := [], diferenciaReport := [] }

def c6OutB : Output :=
  { analysisReport := [c6RowB],
    mermaReport := [("C2", 5)], vencimientoReport := [],
    workbookMermaSheet := some [("C2", 5)], workbookVencSheet := none,
    summaryChartData := [], diferenciaReport := [] }

unseal Nat.gcd Rat.add Rat.sub Rat.mul Rat.inv in
/-- C6 is false as stated: permuting the SAP rows (two `PT01` rows of
the same SKU with different centros) moves the `Z42` merma total from
centro `C1` to centro `C2`, so a per-centro accumulated sum changes
under a permutation of the input rows. -/
theorem c6_counterexample :
    ([c6r2, c6r1] : List Row).Perm [c6r1, c6r2]
    ∧ generateAnalysisFile [c6r1, c6r2] wWms (some c6Adj) = Except.ok (some c6OutA)
    ∧ generateAnalysisFile [c6r2, c6r1] wWms (some c6Adj) = Except.ok (some c6OutB)
    ∧ sumOf c6OutA.mermaReport "C1" = 5
    ∧ sumOf c6OutB.mermaReport "C1" = 0
    ∧ c6OutA.mermaReport ≠ c6OutB.mermaReport :=
  ⟨List.Perm.swap c6r1 c6r2 [], rfl, rfl, rfl, rfl, by decide⟩

def w6a : Row :=
  [("Material", "A"), ("Cantidad", "1"), ("Área", "X"), ("Ubicación", "1"),
   ("Area SAP", "PT01")]

def w6b : Row :=
  [("Material", "A"), ("Cantidad", "2"), ("Área", "X"), ("Ubicación", "1"),
   ("Area SAP", "PT01")]

def w6WmsA : List Row := [wWmsFirst, w6a, w6b]

def w6WmsB : List Row := [wWmsFirst, w6b, w6a]

theorem c6_amended_witness :
    wmsQtyOf (pipelineSt wSapFirst wSap wWmsFirst w6WmsB).dataMap "A"
      = wmsQtyOf (pipelineSt wSapFirst wSap wWmsFirst w6WmsA).dataMap "A"
    ∧ sumOf (summaryByCentro (buildReport (pipelineSt wSapFirst wSap wWmsFirst w6WmsB))) "C1"
      = sumOf (summaryByCentro (buildReport (pipelineSt wSapFirst wSap wWmsFirst w6WmsA))) "C1" :=
  ⟨((c6_amended wSap wSap w6WmsA w6WmsB none none
      (pipelineSt wSapFirst wSap wWmsFirst w6WmsA)
      (pipelineSt wSapFirst wSap wWmsFirst w6WmsB)
      rfl rfl (List.Perm.refl wSap) rfl
      (List.Perm.cons wWmsFirst (List.Perm.swap w6a w6b [])) rfl True.intro).1 "A").2.1,
   ((c6_amended wSap wSap w6WmsA w6WmsB none none
      (pipelineSt wSapFirst wSap wWmsFirst w6WmsA)
      (pipelineSt wSapFirst wSap wWmsFirst w6WmsB)
      rfl rfl (List.Perm.refl wSap) rfl
      (List.Perm.cons wWmsFirst (List.Perm.swap w6a w6b [])) rfl True.intro).2 rfl "C1").2.2⟩

/-! ## C7: rows with unparseable quantities -/

def c7bad : Row :=
  [("Material", "A"), ("Cantidad", "abc"), ("Almacén", "PT01"), ("Centro", "C1")]

unseal Nat.gcd Rat.add Rat.sub Rat.mul Rat.inv in
/-- C7 is false as stated: a SAP data row in area `PT01` with a non-empty
SKU whose quantity cell does not parse as a number produces no validation
error at all — `generateAnalysisFile` succeeds and returns exactly the
output it would produce without that row, i.e. the row is silently
dropped from the aggregation. -/
theorem c7_counterexample :
    sapQtyVal (sapHeadersOf wSapFirst) c7bad = none
    ∧ sapArea (sapHeadersOf wSapFirst) c7bad = "PT01"
    ∧ sapSku (sapHeadersOf wSapFirst) c7bad ≠ ""
    ∧ generateAnalysisFile [wSapFirst, c7bad] wWms none = Except.ok (some wOut)
    ∧ generateAnalysisFile [wSapFirst] wWms none = Except.ok (some wOut) :=
  ⟨rfl, rfl, by decide, rfl, rfl⟩

/-- C7 amended: in every pass (SAP, WMS, adjustments), a data row whose
quantity value does not parse as a number is silently skipped — it leaves
the accumulator state completely unchanged, and no error is raised. -/
theorem c7_amended (st : St) (r : Row) (hs : SapHeaders) (hw : WmsHeaders)
    (ha : AdjHeaders) (stc : List (String × String)) :
    (sapQtyVal hs r = none → processSapRow hs st r = st)
    ∧ (wmsQtyVal hw r = none → processWmsRow hw st r = st)
    ∧ (adjQtyVal ha r = none → processAdjRow ha stc st r = st) := by
  refine ⟨?_, ?_, ?_⟩
  · intro hq
    unfold processSapRow
    rw [hq]
    exact ite_self st
  · intro hq
    unfold processWmsRow
    rw [hq]
  · intro hq
    unfold processAdjRow
    rw [hq]

unseal Nat.gcd Rat.add Rat.sub Rat.mul Rat.inv in
theorem c7_amended_witness :
    processSapRow (sapHeadersOf wSapFirst) emptySt c7bad = emptySt :=
  (c7_amended emptySt c7bad (sapHeadersOf wSapFirst) (wmsHeadersOf wWmsFirst)
    (adjHeadersOf wSapFirst) []).1 rfl

/-! ## C8: determinism and statelessness across invocations

The server action allocates all of its accumulators inside the call, so a
sequence of invocations is modelled as a pure `List.map` of
`generateAnalysisFile` over the list of requests; the result of any one
call is a function of that call's inputs alone. -/

def runCalls (reqs : List (List Row × List Row × Option (List Row))) :
    List (Except String (Option Output)) :=
  reqs.map (fun q => generateAnalysisFile q.1 q.2.1 q.2.2)

theorem runCalls_getElem (pre post : List (List Row × List Row × Option (List Row)))
    (q : List Row × List Row × Option (List Row)) :
    (runCalls (pre ++ q :: post))[pre.length]?
      = some (generateAnalysisFile q.1 q.2.1 q.2.2) := by
  induction pre with
  | nil => simp [runCalls]
  | cons a t ih => simpa [runCalls] using ih

/-- C8: `generateAnalysisFile` is deterministic and stateless across
invocations: identical inputs give identical outputs, the result of the
call at any position in a call sequence is exactly
`generateAnalysisFile` of that call's own inputs, and it is independent
of which calls were made before or after it. -/
theorem c8_stateless :
    (∀ sap wms adj, generateAnalysisFile sap wms adj = generateAnalysisFile sap wms adj)
    ∧ (∀ (pre post : List (List Row × List Row × Option (List Row)))
        (q : List Row × List Row × Option (List Row)),
        (runCalls (pre ++ q :: post))[pre.length]?
          = some (generateAnalysisFile q.1 q.2.1 q.2.2))
    ∧ (∀ (pre post pre2 post2 : List (List Row × List Row × Option (List Row)))
        (q : List Row × List Row × Option (List Row)),
        (runCalls (pre ++ q :: post))[pre.length]?
          = (runCalls (pre2 ++ q :: post2))[pre2.length]?) :=
  ⟨fun _ _ _ => rfl,
   fun pre post q => runCalls_getElem pre post q,
   fun pre post pre2 post2 q =>
     (runCalls_getElem pre post q).trans (runCalls_getElem pre2 post2 q).symm⟩

/-! ## C9: adjustments file with unresolvable columns -/

def w9Adj : List Row := [[("Material", "A"), ("Cantidad", "5")]]

unseal Nat.gcd Rat.add Rat.sub Rat.mul Rat.inv in
/-- C9 exposes a code bug: when the adjustments file is provided but its
movement-class column cannot be resolved, the source's bare `return;`
makes `generateAnalysisFile` return `undefined` (modelled `Except.ok
none`) — no report at all — whereas with no adjustments file the same SAP
and WMS inputs produce the complete output, contradicting the claimed
"skip the adjustments step and return the same complete output". -/
theorem c9_adjustments_return_undefined :
    generateAnalysisFile wSap wWms (some w9Adj) = Except.ok none
    ∧ generateAnalysisFile wSap wWms none = Except.ok (some wOut)
    ∧ (Except.ok none : Except String (Option Output)) ≠ Except.ok (some wOut) :=
  ⟨rfl, rfl, by simp⟩

/-! ## C10: adjustments routing by movement class -/

/-- C10: in the adjustments pass, a valid row (parseable quantity,
non-empty SKU, non-empty movement class) is routed by its movement class:
`Z59`, `Z60`, `Z65`, `Z66` add the quantity to the SKU's monthly
adjustment; `Z42` adds it to the merma total of the centro looked up for
that SKU in the SKU-to-centro map (default `INDEFINIDO`); `Z44` adds it
to the vencimiento total of that centro; any other class leaves the state
unchanged. -/
theorem c10_adjustment_routing (ha : AdjHeaders) (stc : List (String × String))
    (st : St) (r : Row) (qty : ℚ)
    (hq : adjQtyVal ha r = some qty) (hsku : adjSku ha r ≠ "")
    (hcm : adjClaseMov ha r ≠ "") :
    (adjClaseMov ha r ∈ difInvMovs →
      processAdjRow ha stc st r
        = { st with dataMap := (updateEntry (ensureSku st.dataMap (adjSku ha r))
            (adjSku ha r) (adjRowUpd qty)) })
    ∧ (adjClaseMov ha r = "Z42" →
      processAdjRow ha stc st r
        = { st with merma := (addToCentro st.merma
            ((stc.lookup (adjSku ha r)).getD "INDEFINIDO") qty) })
    ∧ (adjClaseMov ha r = "Z44" →
      processAdjRow ha stc st r
        = { st with venc := (addToCentro st.venc
            ((stc.lookup (adjSku ha r)).getD "INDEFINIDO") qty) })
    ∧ (adjClaseMov ha r ∉ difInvMovs → adjClaseMov ha r ≠ "Z42" →
        adjClaseMov ha r ≠ "Z44" → processAdjRow ha stc st r = st) := by
  have hno : ¬(adjSku ha r = "" ∨ adjClaseMov ha r = "") := by
    push_neg
    exact ⟨hsku, hcm⟩
  refine ⟨?_, ?_, ?_, ?_⟩
  · intro h
    unfold processAdjRow
    rw [hq]
    dsimp only
    rw [if_neg hno, if_pos h]
  · intro h
    have hz : ¬(adjClaseMov ha r ∈ difInvMovs) := by
      rw [h]; decide
    unfold processAdjRow
    rw [hq]
    dsimp only
    rw [if_neg hno, if_neg hz, if_pos h]
  · intro h
    have hz : ¬(adjClaseMov ha r ∈ difInvMovs) := by
      rw [h]; decide
    have hz2 : ¬(adjClaseMov ha r = "Z42") := by
      rw [h]; decide
    unfold processAdjRow
    rw [hq]
    dsimp only
    rw [if_neg hno, if_neg hz, if_neg hz2, if_pos h]
  · intro h1 h2 h3
    unfold processAdjRow
    rw [hq]
    dsimp only
    rw [if_neg hno, if_neg h1, if_neg h2, if_neg h3]

def c10Ha : AdjHeaders :=
  { skuHeader := "Material", qtyHeader := "Cantidad", claseMovHeader := "Clase" }

def c10r42 : Row := [("Material", "A"), ("Cantidad", "2"), ("Clase", "Z42")]

def c10rOther : Row := [("Material", "A"), ("Cantidad", "2"), ("Clase", "Z99")]

unseal Nat.gcd Rat.add Rat.sub Rat.mul Rat.inv in
theorem c10_routing_witness :
    processAdjRow c10Ha [] emptySt c10r42
      = { emptySt with merma := addToCentro emptySt.merma "INDEFINIDO" 2 }
    ∧ processAdjRow c10Ha [] emptySt c10rOther = emptySt :=
  ⟨(c10_adjustment_routing c10Ha [] emptySt c10r42 2 rfl (by decide) (by decide)).2.1 rfl,
   (c10_adjustment_routing c10Ha [] emptySt c10rOther 2 rfl (by decide) (by decide)).2.2.2
     (by decide) (by decide) (by decide)⟩

end StockRecon
